import Mathlib

/-!
Verification development for the CatchMole traffic-accounting service.

This file gives a shallow embedding of the core pipeline:
* the conntrack monitor's per-flow-id counter differencing
  (`processEvent` in `pkg/monitor`), and
* the aggregator's event handling, attribution, periodic tick,
  snapshot reads and reset operations (`pkg/stats/aggregator.go`),
and proves the specified properties about them.

Go `map`s are modelled as association lists with deterministic order;
`uint64` byte counters are modelled as `Nat` (the counters are byte
counts, far from the wrap point, and no subtraction in the code can
underflow); wall-clock times and the float64 smoothing state are
modelled as exact rationals (`ℚ`), with Go's `uint64(x + 0.5)`
conversion modelled as truncation.
-/

namespace CatchMole

/-! ### Association-list primitives (model of Go maps) -/

def lookupA {K V : Type} [DecidableEq K] : List (K × V) → K → Option V
  | [], _ => none
  | (k, v) :: rest, k' => if k = k' then some v else lookupA rest k'

def upsertA {K V : Type} [DecidableEq K] (k : K) (v : V) : List (K × V) → List (K × V)
  | [] => [(k, v)]
  | (k', v') :: rest => if k' = k then (k, v) :: rest else (k', v') :: upsertA k v rest

def eraseA {K V : Type} [DecidableEq K] (k : K) : List (K × V) → List (K × V)
  | [] => []
  | (k', v') :: rest => if k' = k then eraseA k rest else (k', v') :: eraseA k rest

/-- Map over the values of an association list, keeping the keys
(the function may consult the key). -/
def mapValsK {K V : Type} (f : K → V → V) (l : List (K × V)) : List (K × V) :=
  l.map (fun p => (p.1, f p.1 p.2))

/-! ### Conntrack monitor (`pkg/monitor`, `ConntrackMonitor.processEvent`) -/

/-- Event kind, `EventType` in the source (`EventUpdate` / `EventDestroy`). -/
inductive EventType : Type
  | update : EventType
  | destroy : EventType
deriving DecidableEq, Repr

/-- Per-flow-id last-counter state, `flowState` in the source. -/
structure FlowState where
  lastOriginBytes : Nat
  lastReplyBytes : Nat
deriving DecidableEq, Repr

/-- The fields of a raw `conntrack.Event` that `processEvent` reads. -/
structure CtEvent where
  eventType : EventType
  flowID : Nat
  countersOrigBytes : Nat
  countersReplyBytes : Nat
  srcIP : String
  dstIP : String
  srcPort : Nat
  dstPort : Nat
  proto : Nat
deriving DecidableEq, Repr

/-- The delta event emitted by the monitor, `FlowEvent` in the source
(only the fields the pipeline uses downstream). -/
structure FlowEvent where
  srcIP : String
  dstIP : String
  srcPort : Nat
  dstPort : Nat
  proto : Nat
  originBytes : Nat
  replyBytes : Nat
  flowID : Nat
  timestamp : ℚ
  eventType : EventType
deriving DecidableEq, Repr

/-- One direction of the differencing step: given the current cumulative
counter and the stored baseline, return the delta and the new baseline.
Mirrors the two identical `if curOrig >= last.LastOriginBytes { ... }`
blocks of `processEvent`. -/
def diffDir (cur last : Nat) : Nat × Nat :=
  if cur ≥ last then (cur - last, cur)
  else if cur = 0 then (0, last)
  else (0, cur)

/-- The differencing part of `processEvent` (its state-update block):
returns the updated per-flow-id state together with the two deltas. -/
def applyDiff (st : List (Nat × FlowState)) (fid origC replyC : Nat) :
    List (Nat × FlowState) × Nat × Nat :=
  match lookupA st fid with
  | none => (upsertA fid ⟨origC, replyC⟩ st, 0, 0)
  | some last =>
      let dO := diffDir origC last.lastOriginBytes
      let dR := diffDir replyC last.lastReplyBytes
      (upsertA fid ⟨dO.2, dR.2⟩ st, dO.1, dR.1)

/-- `ConntrackMonitor.processEvent`: difference the cumulative counters
against the per-flow-id state, drop the state on destroy, and emit a
delta event unless both deltas are zero. -/
def processEvent (st : List (Nat × FlowState)) (ev : CtEvent) (now : ℚ) :
    List (Nat × FlowState) × Option FlowEvent :=
  let d := applyDiff st ev.flowID ev.countersOrigBytes ev.countersReplyBytes
  let st2 := if ev.eventType = .destroy then eraseA ev.flowID d.1 else d.1
  if d.2.1 = 0 ∧ d.2.2 = 0 then (st2, none)
  else (st2, some { srcIP := ev.srcIP, dstIP := ev.dstIP, srcPort := ev.srcPort,
                    dstPort := ev.dstPort, proto := ev.proto,
                    originBytes := d.2.1, replyBytes := d.2.2,
                    flowID := ev.flowID, timestamp := now, eventType := ev.eventType })

/-- The stored origin baseline for a flow-id, if any. -/
def originBaseline (st : List (Nat × FlowState)) (fid : Nat) : Option Nat :=
  (lookupA st fid).map FlowState.lastOriginBytes

/-- The stored reply baseline for a flow-id, if any. -/
def replyBaseline (st : List (Nat × FlowState)) (fid : Nat) : Option Nat :=
  (lookupA st fid).map FlowState.lastReplyBytes

/-- The pair of deltas the differencing step computes for a sample. -/
def deltasOf (st : List (Nat × FlowState)) (fid origC replyC : Nat) : Nat × Nat :=
  (applyDiff st fid origC replyC).2

/-! ### Aggregator data model (`pkg/stats/aggregator.go`, `model`) -/

/-- Per-client statistics, `model.ClientStats` in the source. -/
structure ClientStats where
  mac : String
  name : String
  totalDownload : Nat
  totalUpload : Nat
  sessionDownload : Nat
  sessionUpload : Nat
  downloadSpeed : Nat
  uploadSpeed : Nat
  activeConnections : Nat
  startTime : ℚ
  lastActive : ℚ
  totalUploadLast : Nat
  totalDownloadLast : Nat
  lastSpeedCalc : ℚ
  smoothedActiveConns : ℚ
  rawActiveConns : Nat
deriving DecidableEq, Repr

/-- The canonical flow key. In the Go source this is the formatted string
`srcIP:srcPort->dstIP:dstPort:proto`; it is modelled as the tuple itself. -/
structure FlowKey where
  srcIP : String
  srcPort : Nat
  dstIP : String
  dstPort : Nat
  proto : Nat
deriving DecidableEq, Repr

/-- Per-flow accounting state, `FlowTracker` in the source. -/
structure FlowTracker where
  flowID : Nat
  firstSeen : ℚ
  lastSeen : ℚ
  srcIP : String
  dstIP : String
  srcPort : Nat
  dstPort : Nat
  proto : Nat
  totalOriginBytes : Nat
  totalReplyBytes : Nat
  sessionStartOriginBytes : Nat
  sessionStartReplyBytes : Nat
  origSpeed : Nat
  replySpeed : Nat
  speedTotalOriginLast : Nat
  speedTotalReplyLast : Nat
  speedLastCalc : ℚ
deriving DecidableEq, Repr

/-- An interface subnet, modelled by its containment test
(`net.IPNet.Contains` in the source). -/
abbrev Subnet : Type := String → Bool

/-- The ambient environment an aggregator call observes: the neighbor
table lookup (`NeighborWatcher.GetMAC`, returning `""` when the IP does
not resolve), the multicast / broadcast tests on destination IPs, and the
current wall-clock time. -/
structure Env where
  getMAC : String → String
  isMulticast : String → Bool
  isBcast : String → Bool
  now : ℚ

/-- The aggregator state, `stats.Aggregator` in the source (the mutex and
the channel plumbing are not part of the state model; `interfaceIndex` is
never read by the modelled logic and is omitted). -/
structure Aggregator where
  clients : List (String × ClientStats)
  flows : List (FlowKey × FlowTracker)
  globalTotalDownload : Nat
  globalTotalUpload : Nat
  globalSmoothedConns : ℚ
  startTime : ℚ
  staticNames : List (String × String)
  ignoreLAN : Bool
  interfaceName : String
  lanSubnets : List Subnet
  flowTTL : ℚ

/-- `NewAggregator`: empty maps, zero totals, 60 s default flow TTL. -/
def initAggregator (now : ℚ) : Aggregator :=
  { clients := []
    flows := []
    globalTotalDownload := 0
    globalTotalUpload := 0
    globalSmoothedConns := 0
    startTime := now
    staticNames := []
    ignoreLAN := false
    interfaceName := ""
    lanSubnets := []
    flowTTL := 60 }

/-! ### Aggregator event handling -/

/-- The 1 GiB per-event safety cap, `SafeCap` in `handleEvent`. -/
def SafeCap : Nat := 1 * 1024 * 1024 * 1024

/-- Clamp one per-event delta: deltas above `SafeCap` are treated as
erroneous and replaced by zero. -/
def capDelta (d : Nat) : Nat := if d > SafeCap then 0 else d

/-- Whether an IP lies in any of the given subnets (the subnet loops in
`handleEvent` and `checkFlowSubnet`). -/
def inAnySubnet (subnets : List Subnet) (ip : String) : Bool :=
  subnets.any (fun sn => sn ip)

/-- `Aggregator.checkFlowSubnet`: true when no interface is configured,
else when either endpoint lies in one of the interface's subnets. -/
def checkFlowSubnet (a : Aggregator) (src dst : String) : Bool :=
  if a.interfaceName = "" then true
  else inAnySubnet a.lanSubnets src || inAnySubnet a.lanSubnets dst

/-- The fresh client record `getClient` allocates on first sight of a MAC
(display name from the static table when present, else the MAC). -/
def freshClient (a : Aggregator) (mac : String) (now : ℚ) : ClientStats :=
  { mac := mac
    name := match lookupA a.staticNames mac with
            | some n => n
            | none => mac
    totalDownload := 0
    totalUpload := 0
    sessionDownload := 0
    sessionUpload := 0
    downloadSpeed := 0
    uploadSpeed := 0
    activeConnections := 0
    startTime := now
    lastActive := 0
    totalUploadLast := 0
    totalDownloadLast := 0
    lastSpeedCalc := 0
    smoothedActiveConns := 0
    rawActiveConns := 0 }

/-- `Aggregator.getClient` as a pure value: the stored record when the
MAC is known, else a fresh one. -/
def getClientVal (a : Aggregator) (mac : String) (now : ℚ) : ClientStats :=
  match lookupA a.clients mac with
  | some c => c
  | none => freshClient a mac now

/-- The source-side client update of `updateStats`: origin delta is the
client's upload, reply delta its download. -/
def bumpSrc (c : ClientStats) (dO dR : Nat) (now : ℚ) : ClientStats :=
  { c with sessionUpload := c.sessionUpload + dO
           totalUpload := c.totalUpload + dO
           sessionDownload := c.sessionDownload + dR
           totalDownload := c.totalDownload + dR
           lastActive := now }

/-- The destination-side client update of `updateStats`: origin delta is
the client's download, reply delta its upload. -/
def bumpDst (c : ClientStats) (dO dR : Nat) (now : ℚ) : ClientStats :=
  { c with sessionDownload := c.sessionDownload + dO
           totalDownload := c.totalDownload + dO
           sessionUpload := c.sessionUpload + dR
           totalUpload := c.totalUpload + dR
           lastActive := now }

/-- `Aggregator.updateStats`: attribute the two deltas to the clients the
tracker's endpoints resolve to, then to the global WAN totals when
exactly one side is local. -/
def updateStats (env : Env) (a : Aggregator) (ft : FlowTracker) (dO dR : Nat) : Aggregator :=
  let srcMac := env.getMAC ft.srcIP
  let dstMac := env.getMAC ft.dstIP
  let isSrcLocal := srcMac ≠ ""
  let isDstLocal := dstMac ≠ "" ∧ dstMac ≠ srcMac
  let a1 := if isSrcLocal then
      { a with clients :=
          upsertA srcMac (bumpSrc (getClientVal a srcMac env.now) dO dR env.now) a.clients }
    else a
  let a2 := if isDstLocal then
      { a1 with clients :=
          upsertA dstMac (bumpDst (getClientVal a1 dstMac env.now) dO dR env.now) a1.clients }
    else a1
  if isSrcLocal ∧ ¬ isDstLocal then
    { a2 with globalTotalUpload := a2.globalTotalUpload + dO
              globalTotalDownload := a2.globalTotalDownload + dR }
  else if isDstLocal ∧ ¬ isSrcLocal then
    { a2 with globalTotalDownload := a2.globalTotalDownload + dO
              globalTotalUpload := a2.globalTotalUpload + dR }
  else a2

/-- The flow key `handleEvent` derives from an event. -/
def mkFlowKey (ev : FlowEvent) : FlowKey :=
  ⟨ev.srcIP, ev.srcPort, ev.dstIP, ev.dstPort, ev.proto⟩

/-- The tracker `handleEvent` allocates for a newly observed flow. -/
def newTracker (env : Env) (ev : FlowEvent) : FlowTracker :=
  { flowID := ev.flowID
    firstSeen := env.now
    lastSeen := env.now
    srcIP := ev.srcIP
    dstIP := ev.dstIP
    srcPort := ev.srcPort
    dstPort := ev.dstPort
    proto := ev.proto
    totalOriginBytes := 0
    totalReplyBytes := 0
    sessionStartOriginBytes := 0
    sessionStartReplyBytes := 0
    origSpeed := 0
    replySpeed := 0
    speedTotalOriginLast := 0
    speedTotalReplyLast := 0
    speedLastCalc := 0 }

/-- The tail of `handleEvent` shared by the existing-tracker and
new-tracker paths: update last-seen, clamp the deltas, accumulate them
into the tracker's cumulative totals, store the tracker, and attribute
the deltas via `updateStats`. -/
def accumulate (env : Env) (a : Aggregator) (key : FlowKey) (ft : FlowTracker)
    (ev : FlowEvent) : Aggregator :=
  let deltaOrig := capDelta ev.originBytes
  let deltaReply := capDelta ev.replyBytes
  let ft2 := { ft with lastSeen := env.now
                       totalOriginBytes := ft.totalOriginBytes + deltaOrig
                       totalReplyBytes := ft.totalReplyBytes + deltaReply }
  updateStats env { a with flows := upsertA key ft2 a.flows } ft2 deltaOrig deltaReply

/-- `Aggregator.handleEvent`: interface-subnet filter, multicast and
broadcast filters, lazy tracker creation guarded by the new-flow LAN
filter, then accumulation and attribution. -/
def handleEvent (env : Env) (a : Aggregator) (ev : FlowEvent) : Aggregator :=
  let key := mkFlowKey ev
  if a.interfaceName ≠ "" ∧ ¬ checkFlowSubnet a ev.srcIP ev.dstIP then a
  else if env.isMulticast ev.dstIP then a
  else if env.isBcast ev.dstIP then a
  else
    match lookupA a.flows key with
    | some ft => accumulate env a key ft ev
    | none =>
        let srcMac := env.getMAC ev.srcIP
        let dstMac := env.getMAC ev.dstIP
        if a.ignoreLAN ∧ a.lanSubnets.length > 0 then
          if inAnySubnet a.lanSubnets ev.srcIP && inAnySubnet a.lanSubnets ev.dstIP then a
          else accumulate env a key (newTracker env ev) ev
        else if a.ignoreLAN ∧ srcMac ≠ "" ∧ dstMac ≠ "" then a
        else accumulate env a key (newTracker env ev) ev

/-! ### Aggregator periodic tick (`cleanupAndCalculate` / `calculateSpeedStats`) -/

/-- Go's `uint64(q)` conversion of a non-negative float: truncation. -/
def truncQ (q : ℚ) : Nat := ⌊q⌋.toNat

/-- Go's `int(q)` conversion of a float: truncation toward zero. -/
def truncZ (q : ℚ) : Int := if q ≥ 0 then ⌊q⌋ else -⌊-q⌋

/-- The per-client part of step 1 of `calculateSpeedStats`: zero the raw
active-connection count and recompute the speeds when at least half a
second elapsed since the last sample. -/
def clientSpeedStep (now : ℚ) (c : ClientStats) : ClientStats :=
  let c := { c with rawActiveConns := 0 }
  if c.lastSpeedCalc = 0 then
    { c with lastSpeedCalc := now
             totalUploadLast := c.totalUpload
             totalDownloadLast := c.totalDownload }
  else if now - c.lastSpeedCalc ≥ 1/2 then
    let secs := now - c.lastSpeedCalc
    { c with uploadSpeed := truncQ (((c.totalUpload - c.totalUploadLast : Nat) : ℚ) / secs)
             downloadSpeed := truncQ (((c.totalDownload - c.totalDownloadLast : Nat) : ℚ) / secs)
             totalUploadLast := c.totalUpload
             totalDownloadLast := c.totalDownload
             lastSpeedCalc := now }
  else c

/-- The effective TTL used by the sweep (`ttl := a.flowTTL; if ttl <= 0
then 60s`). -/
def flowTTLeff (a : Aggregator) : ℚ := if a.flowTTL ≤ 0 then 60 else a.flowTTL

/-- The per-flow speed recomputation of step 2 of `calculateSpeedStats`. -/
def flowSpeedStep (now : ℚ) (f : FlowTracker) : FlowTracker :=
  if f.speedLastCalc = 0 then
    { f with speedLastCalc := now
             speedTotalOriginLast := f.totalOriginBytes
             speedTotalReplyLast := f.totalReplyBytes }
  else if now - f.speedLastCalc ≥ 1/2 then
    let fsecs := now - f.speedLastCalc
    { f with origSpeed := truncQ (((f.totalOriginBytes - f.speedTotalOriginLast : Nat) : ℚ) / fsecs)
             replySpeed := truncQ (((f.totalReplyBytes - f.speedTotalReplyLast : Nat) : ℚ) / fsecs)
             speedTotalOriginLast := f.totalOriginBytes
             speedTotalReplyLast := f.totalReplyBytes
             speedLastCalc := now }
  else f

/-- The raw active-connection count a client accumulates in step 2: one
increment per surviving flow whose source resolves to the MAC plus one
per surviving flow whose destination resolves to it. -/
def rawCountFor (env : Env) (survivors : List (FlowKey × FlowTracker)) (mac : String) : Nat :=
  (survivors.filter (fun kf => env.getMAC kf.2.srcIP = mac)).length +
    (survivors.filter (fun kf => env.getMAC kf.2.dstIP = mac)).length

/-- Step 3 of `calculateSpeedStats`: the exponential smoothing step with
`alpha = 0.2`, including the seed rule that bypasses the slow ramp from
zero. -/
def smoothStep (smoothed : ℚ) (raw : Nat) : ℚ :=
  if smoothed = 0 ∧ raw > 0 then (raw : ℚ)
  else (1/5) * (raw : ℚ) + (1 - 1/5) * smoothed

/-- The published rounded active-connection count,
`uint64(smoothed + 0.5)` in the source. -/
def roundConns (smoothed : ℚ) : Nat := truncQ (smoothed + 1/2)

/-- `Aggregator.calculateSpeedStats`: client speed recomputation, flow
sweep and flow speed recomputation, raw active-connection tally, and
exponential smoothing of the per-client and global counts. -/
def calculateSpeedStats (env : Env) (a : Aggregator) : Aggregator :=
  let clients1 := mapValsK (fun _ c => clientSpeedStep env.now c) a.clients
  let ttl := flowTTLeff a
  let survivors := mapValsK (fun _ f => flowSpeedStep env.now f)
      (a.flows.filter (fun kf => ¬ env.now - kf.2.lastSeen > ttl))
  let globalRaw := survivors.length
  let clients2 := mapValsK (fun m c => { c with rawActiveConns := rawCountFor env survivors m })
      clients1
  let clients3 := mapValsK (fun _ c =>
      let s := smoothStep c.smoothedActiveConns c.rawActiveConns
      { c with smoothedActiveConns := s, activeConnections := roundConns s }) clients2
  { a with clients := clients3
           flows := survivors
           globalSmoothedConns := smoothStep a.globalSmoothedConns globalRaw }

/-- One firing of the `cleanupAndCalculate` ticker: refresh the LAN
subnets from the monitored interface (`refreshSubnets`; `none` models a
netlink error, in which case the previous subnets are kept) and then run
`calculateSpeedStats`. The neighbor refresh is modelled by the `Env`
each tick carries. -/
def tickOp (env : Env) (subnets : Option (List Subnet)) (a : Aggregator) : Aggregator :=
  let a1 := if a.interfaceName = "" then a
    else match subnets with
         | some sns => { a with lanSubnets := sns }
         | none => a
  calculateSpeedStats env a1

/-! ### Aggregator reads (`GetFlowsByMAC`, `GetClientWithSession`) -/

/-- The saturating subtraction `safeSub` of the source. -/
def safeSub (a b : Nat) : Nat := if a ≥ b then a - b else 0

/-- `getProtocolName`: protocol number to display string. -/
def getProtocolName (p : Nat) : String :=
  if p = 6 then "TCP"
  else if p = 17 then "UDP"
  else if p = 1 then "ICMP"
  else if p = 58 then "ICMP"
  else toString p

/-- The aggregation key of `GetFlowsByMAC`: the remote 3-tuple seen from
the client's perspective. -/
structure AggKey where
  proto : Nat
  remoteIP : String
  remotePort : Nat
deriving DecidableEq, Repr

/-- One aggregation bucket of `GetFlowsByMAC`. -/
structure AggVal where
  totalDownload : Nat
  totalUpload : Nat
  sessionDownload : Nat
  sessionUpload : Nat
  downloadSpeed : Nat
  uploadSpeed : Nat
  activeConns : Nat
  localIP : String
  firstSeen : ℚ
  lastSeen : ℚ
deriving DecidableEq, Repr

/-- The per-client flow row returned by `GetFlowsByMAC`,
`model.FlowDetail` in the source. -/
structure FlowDetail where
  protocol : String
  clientIP : String
  remoteIP : String
  remotePort : Nat
  totalDownload : Nat
  totalUpload : Nat
  sessionDownload : Nat
  sessionUpload : Nat
  downloadSpeed : Nat
  uploadSpeed : Nat
  activeConnections : Nat
  duration : Nat
  ttlRemaining : Int
deriving DecidableEq, Repr

/-- Insertion into the set of local IPs (`ipSet` in the source). -/
def insertIP (s : List String) (ip : String) : List String :=
  if ip ∈ s then s else s ++ [ip]

/-- The loop body of `GetFlowsByMAC`: skip flows not involving the MAC,
collect the local IP, and merge the flow into its aggregation bucket. -/
def flowsFold (env : Env) (mac : String)
    (acc : List (AggKey × AggVal) × List String) (kf : FlowKey × FlowTracker) :
    List (AggKey × AggVal) × List String :=
  let f := kf.2
  let isSrc := env.getMAC f.srcIP = mac
  let isDst := env.getMAC f.dstIP = mac
  if ¬ isSrc ∧ ¬ isDst then acc
  else
    let ips1 := if isSrc then insertIP acc.2 f.srcIP else acc.2
    let ips2 := if isDst then insertIP ips1 f.dstIP else ips1
    let localIP := if isSrc then f.srcIP else f.dstIP
    let remoteIP := if isSrc then f.dstIP else f.srcIP
    let remotePort := if isSrc then f.dstPort else f.srcPort
    let totalDl := if isDst then f.totalOriginBytes else f.totalReplyBytes
    let totalUl := if isDst then f.totalReplyBytes else f.totalOriginBytes
    let sessionDl := if isDst then safeSub f.totalOriginBytes f.sessionStartOriginBytes
      else safeSub f.totalReplyBytes f.sessionStartReplyBytes
    let sessionUl := if isDst then safeSub f.totalReplyBytes f.sessionStartReplyBytes
      else safeSub f.totalOriginBytes f.sessionStartOriginBytes
    let k : AggKey := ⟨f.proto, remoteIP, remotePort⟩
    let v0 := match lookupA acc.1 k with
      | some v => v
      | none => { totalDownload := 0, totalUpload := 0, sessionDownload := 0
                  sessionUpload := 0, downloadSpeed := 0, uploadSpeed := 0
                  activeConns := 0, localIP := localIP
                  firstSeen := f.firstSeen, lastSeen := f.lastSeen }
    let v1 := { v0 with totalDownload := v0.totalDownload + totalDl
                        totalUpload := v0.totalUpload + totalUl
                        sessionDownload := v0.sessionDownload + sessionDl
                        sessionUpload := v0.sessionUpload + sessionUl
                        activeConns := v0.activeConns + 1
                        uploadSpeed := v0.uploadSpeed +
                          (if isSrc then f.origSpeed else f.replySpeed)
                        downloadSpeed := v0.downloadSpeed +
                          (if isSrc then f.replySpeed else f.origSpeed) }
    let v2 := { v1 with firstSeen := if f.firstSeen < v1.firstSeen then f.firstSeen else v1.firstSeen
                        lastSeen := if v1.lastSeen < f.lastSeen then f.lastSeen else v1.lastSeen }
    (upsertA k v2 acc.1, ips2)

/-- Conversion of one aggregation bucket into a `FlowDetail` row. -/
def mkFlowDetail (env : Env) (a : Aggregator) (k : AggKey) (v : AggVal) : FlowDetail :=
  { protocol := getProtocolName k.proto
    clientIP := v.localIP
    remoteIP := k.remoteIP
    remotePort := k.remotePort
    totalDownload := v.totalDownload
    totalUpload := v.totalUpload
    sessionDownload := v.sessionDownload
    sessionUpload := v.sessionUpload
    downloadSpeed := v.downloadSpeed
    uploadSpeed := v.uploadSpeed
    activeConnections := v.activeConns
    duration := truncQ (v.lastSeen - v.firstSeen)
    ttlRemaining := truncZ (a.flowTTL - (env.now - v.lastSeen)) }

/-- `Aggregator.GetFlowsByMAC`: the aggregated per-client flow view, the
total underlying-tracker count, and the distinct local IPs. -/
def getFlowsByMAC (env : Env) (a : Aggregator) (mac : String) :
    List FlowDetail × Nat × List String :=
  let acc := a.flows.foldl (flowsFold env mac) ([], [])
  let flows := acc.1.map (fun kv => mkFlowDetail env a kv.1 kv.2)
  let total := acc.1.foldl (fun n kv => n + kv.2.activeConns) 0
  (flows, total, acc.2)

/-- `Aggregator.GetClientWithSession`: the stored record for the MAC, if
any (the Go code returns a copy; the model returns the value). -/
def getClientWithSession (a : Aggregator) (mac : String) : Option ClientStats :=
  lookupA a.clients mac

/-! ### Aggregator resets and configuration setters -/

/-- `Aggregator.Reset`: zero the global totals and the start time, clear
all clients and flows; configuration and the smoothed count are kept. -/
def resetAgg (now : ℚ) (a : Aggregator) : Aggregator :=
  { a with startTime := now
           globalTotalDownload := 0
           globalTotalUpload := 0
           clients := []
           flows := [] }

/-- The flow-deletion predicate shared by `ResetClientByMAC` and
`ResetSessionByMAC`: a tracker is removed when either endpoint resolves
to the MAC. -/
def flowTouchesMAC (env : Env) (mac : String) (f : FlowTracker) : Prop :=
  env.getMAC f.srcIP = mac ∨ env.getMAC f.dstIP = mac

instance (env : Env) (mac : String) (f : FlowTracker) : Decidable (flowTouchesMAC env mac f) :=
  inferInstanceAs (Decidable (_ ∨ _))

/-- `Aggregator.ResetClientByMAC`: delete the client entry and every
tracker either endpoint of which resolves to the MAC. -/
def resetClientByMAC (env : Env) (a : Aggregator) (mac : String) : Aggregator :=
  { a with clients := eraseA mac a.clients
           flows := a.flows.filter (fun kf => ¬ flowTouchesMAC env mac kf.2) }

/-- `Aggregator.ResetSessionByMAC`: zero the client's session counters
and delete every tracker either endpoint of which resolves to the MAC. -/
def resetSessionByMAC (env : Env) (a : Aggregator) (mac : String) : Aggregator :=
  let clients1 := match lookupA a.clients mac with
    | some c => upsertA mac { c with sessionDownload := 0, sessionUpload := 0 } a.clients
    | none => a.clients
  { a with clients := clients1
           flows := a.flows.filter (fun kf => ¬ flowTouchesMAC env mac kf.2) }

/-- `Aggregator.SetDeviceNames`: rebuild the static name table with
lower-cased keys and rename already-known clients. -/
def setDeviceNames (a : Aggregator) (names : List (String × String)) : Aggregator :=
  let sn := names.foldl (fun m p => upsertA p.1.toLower p.2 m) []
  { a with staticNames := sn
           clients := mapValsK (fun mac c =>
             match lookupA sn mac with
             | some n => { c with name := n }
             | none => c) a.clients }

/-- `Aggregator.SetIgnoreLAN`. -/
def setIgnoreLAN (a : Aggregator) (b : Bool) : Aggregator := { a with ignoreLAN := b }

/-- `Aggregator.SetFlowTTL`. -/
def setFlowTTL (a : Aggregator) (ttl : ℚ) : Aggregator := { a with flowTTL := ttl }

/-- `Aggregator.SetInterface` (success path): record the interface name
and the subnets netlink reports for it. -/
def setInterface (a : Aggregator) (name : String) (subnets : List Subnet) : Aggregator :=
  { a with interfaceName := name, lanSubnets := subnets }

/-! ### Reachable aggregator states -/

/-- The state-mutating operations of the aggregator. Each operation
carries the `Env` (neighbor table, filters, clock) it observes, since
the neighbor table is refreshed independently between operations. -/
inductive Op : Type
  | event (env : Env) (ev : FlowEvent)
  | tick (env : Env) (subnets : Option (List Subnet))
  | reset (now : ℚ)
  | resetClient (env : Env) (mac : String)
  | resetSession (env : Env) (mac : String)
  | deviceNames (names : List (String × String))
  | ignoreLANSet (b : Bool)
  | flowTTLSet (ttl : ℚ)
  | interfaceSet (name : String) (subnets : List Subnet)

/-- Apply one operation to the aggregator state. -/
def applyOp (a : Aggregator) : Op → Aggregator
  | .event env ev => handleEvent env a ev
  | .tick env sns => tickOp env sns a
  | .reset now => resetAgg now a
  | .resetClient env mac => resetClientByMAC env a mac
  | .resetSession env mac => resetSessionByMAC env a mac
  | .deviceNames names => setDeviceNames a names
  | .ignoreLANSet b => setIgnoreLAN a b
  | .flowTTLSet ttl => setFlowTTL a ttl
  | .interfaceSet name sns => setInterface a name sns

/-- The aggregator state reached from a fresh aggregator by a sequence
of operations. -/
def runOps (now0 : ℚ) (ops : List Op) : Aggregator :=
  ops.foldl applyOp (initAggregator now0)

/-! ### Invariants and observation helpers -/

/-- Per-client invariant: session counters never exceed cumulative
counters. -/
def ClientInv (c : ClientStats) : Prop :=
  c.sessionUpload ≤ c.totalUpload ∧ c.sessionDownload ≤ c.totalDownload

/-- Per-tracker invariant: the session-start snapshots never exceed the
cumulative totals, hence the session-scoped byte counts (cumulative
minus snapshot, as `GetFlowsByMAC` computes them) never exceed the
cumulative totals. -/
def TrackerInv (f : FlowTracker) : Prop :=
  f.sessionStartOriginBytes ≤ f.totalOriginBytes ∧
    f.sessionStartReplyBytes ≤ f.totalReplyBytes ∧
    safeSub f.totalOriginBytes f.sessionStartOriginBytes ≤ f.totalOriginBytes ∧
    safeSub f.totalReplyBytes f.sessionStartReplyBytes ≤ f.totalReplyBytes

/-- The session-vs-cumulative invariant over the whole aggregator
state. -/
def SessionInv (a : Aggregator) : Prop :=
  (∀ p ∈ a.clients, ClientInv p.2) ∧ (∀ p ∈ a.flows, TrackerInv p.2)

/-- The four byte counters recorded for a MAC in a client table (zero
when no entry exists). -/
def countersIn (cl : List (String × ClientStats)) (mac : String) : Nat × Nat × Nat × Nat :=
  match lookupA cl mac with
  | some c => (c.totalUpload, c.totalDownload, c.sessionUpload, c.sessionDownload)
  | none => (0, 0, 0, 0)

/-- The four byte counters recorded for a MAC (zero when no entry
exists). -/
def clientCounters (a : Aggregator) (mac : String) : Nat × Nat × Nat × Nat :=
  countersIn a.clients mac

/-- The cumulative byte totals of the tracker at a key in a flow table
(zero when no tracker exists). -/
def totalsIn (fl : List (FlowKey × FlowTracker)) (key : FlowKey) : Nat × Nat :=
  match lookupA fl key with
  | some f => (f.totalOriginBytes, f.totalReplyBytes)
  | none => (0, 0)

/-- The cumulative byte totals of the tracker at a key (zero when no
tracker exists). -/
def trackerTotals (a : Aggregator) (key : FlowKey) : Nat × Nat :=
  totalsIn a.flows key

/-- An event with both per-event deltas clamped by the safety cap. -/
def capEvent (ev : FlowEvent) : FlowEvent :=
  { ev with originBytes := capDelta ev.originBytes
            replyBytes := capDelta ev.replyBytes }

/-- Whether `handleEvent` processes the event (reaches the accumulation
and attribution code) rather than dropping it at one of the filters. -/
def eventProcessed (env : Env) (a : Aggregator) (ev : FlowEvent) : Bool :=
  if a.interfaceName ≠ "" ∧ ¬ checkFlowSubnet a ev.srcIP ev.dstIP then false
  else if env.isMulticast ev.dstIP then false
  else if env.isBcast ev.dstIP then false
  else
    match lookupA a.flows (mkFlowKey ev) with
    | some _ => true
    | none =>
        if a.ignoreLAN ∧ a.lanSubnets.length > 0 then
          !(inAnySubnet a.lanSubnets ev.srcIP && inAnySubnet a.lanSubnets ev.dstIP)
        else if a.ignoreLAN ∧ env.getMAC ev.srcIP ≠ "" ∧ env.getMAC ev.dstIP ≠ "" then false
        else true

/-- The endpoint IPs `updateStats` resolves for an event: those of the
stored tracker when one exists, else those of the event itself. -/
def attrIPs (a : Aggregator) (ev : FlowEvent) : String × String :=
  match lookupA a.flows (mkFlowKey ev) with
  | some ft => (ft.srcIP, ft.dstIP)
  | none => (ev.srcIP, ev.dstIP)

/-- Whether handling the event in state `a` attributes it to `mac`:
the event is processed and the MAC is resolved as the local source, or
as a local destination distinct from the source. -/
def attributesTo (env : Env) (a : Aggregator) (ev : FlowEvent) (mac : String) : Bool :=
  eventProcessed env a ev &&
    (let srcMac := env.getMAC (attrIPs a ev).1
     let dstMac := env.getMAC (attrIPs a ev).2
     decide ((srcMac = mac ∧ mac ≠ "") ∨ (dstMac = mac ∧ mac ≠ "" ∧ dstMac ≠ srcMac)))

/-- Ghost fold tracking, alongside the state, whether some event has
been attributed to `mac` since the last reset affecting it (a global
reset or a per-client reset of that MAC). -/
def attrStep (mac : String) (ab : Aggregator × Bool) (op : Op) : Aggregator × Bool :=
  (applyOp ab.1 op,
   match op with
   | .event env ev => ab.2 || attributesTo env ab.1 ev mac
   | .reset _ => false
   | .resetClient _ m => if m = mac then false else ab.2
   | _ => ab.2)

/-! ### Concrete instances used by the closed-form theorems -/

/-- A concrete neighbor environment: `192.168.1.10` resolves to the MAC
`aa:aa:aa:aa:aa:aa`, nothing else resolves, nothing is multicast or
broadcast. -/
def cEnv : Env :=
  { getMAC := fun ip => if ip = "192.168.1.10" then "aa:aa:aa:aa:aa:aa" else ""
    isMulticast := fun _ => false
    isBcast := fun _ => false
    now := 1 }

/-- A delta event whose origin delta exceeds the 1 GiB safety cap by one
byte (such an event passes the monitor's both-zero suppression since the
delta is nonzero, but the aggregator clamps it to zero). -/
def cBigEvent : FlowEvent :=
  { srcIP := "192.168.1.10"
    dstIP := "8.8.8.8"
    srcPort := 1234
    dstPort := 443
    proto := 6
    originBytes := 1073741825
    replyBytes := 0
    flowID := 7
    timestamp := 1
    eventType := .update }

/-- A concrete in-range delta event between the same endpoints. -/
def cSmallEvent : FlowEvent :=
  { srcIP := "192.168.1.10"
    dstIP := "8.8.8.8"
    srcPort := 1234
    dstPort := 443
    proto := 6
    originBytes := 1000
    replyBytes := 9000
    flowID := 7
    timestamp := 1
    eventType := .update }

/-- A concrete aggregator state with an interface configured but an
empty LAN-subnet list. -/
def cIfaceAgg : Aggregator :=
  { initAggregator 0 with interfaceName := "eth0", lanSubnets := [] }

/-- A concrete monitor state: flow-id 7 last seen at (10000, 20000). -/
def cMonState : List (Nat × FlowState) := [(7, ⟨10000, 20000⟩)]

/-- A concrete conntrack update sample for flow-id 7 with cumulative
counters (10500, 20000). -/
def cCtUpd : CtEvent :=
  { eventType := .update
    flowID := 7
    countersOrigBytes := 10500
    countersReplyBytes := 20000
    srcIP := "192.168.1.10"
    dstIP := "8.8.8.8"
    srcPort := 1234
    dstPort := 443
    proto := 6 }

/-- The same sample as a destroy event. -/
def cCtDestroy : CtEvent := { cCtUpd with eventType := .destroy }

/-- A destroy sample whose counters equal the stored baselines, so both
deltas are zero. -/
def cCtQuiet : CtEvent :=
  { cCtDestroy with countersOrigBytes := 10000, countersReplyBytes := 20000 }

/-! ### Lemmas about the association-list primitives -/

theorem lookupA_cons {K V : Type} [DecidableEq K] (k q : K) (v : V) (l : List (K × V)) :
    lookupA ((k, v) :: l) q = if k = q then some v else lookupA l q := rfl

theorem lookupA_upsertA {K V : Type} [DecidableEq K] (k q : K) (v : V) (l : List (K × V)) :
    lookupA (upsertA k v l) q = if k = q then some v else lookupA l q := by
  induction l with
  | nil => simp [upsertA, lookupA]
  | cons p rest ih =>
      obtain ⟨pk, pv⟩ := p
      by_cases hpk : pk = k <;> by_cases hkq : k = q <;> by_cases hpq : pk = q <;>
        simp_all [upsertA, lookupA_cons]

theorem lookupA_eraseA {K V : Type} [DecidableEq K] (k q : K) (l : List (K × V)) :
    lookupA (eraseA k l) q = if k = q then none else lookupA l q := by
  induction l with
  | nil => simp [eraseA, lookupA]
  | cons p rest ih =>
      obtain ⟨pk, pv⟩ := p
      by_cases hpk : pk = k <;> by_cases hkq : k = q <;> by_cases hpq : pk = q <;>
        simp_all [eraseA, lookupA_cons]

theorem mem_upsertA {K V : Type} [DecidableEq K] {k : K} {v : V} {l : List (K × V)}
    {p : K × V} (h : p ∈ upsertA k v l) : p = (k, v) ∨ p ∈ l := by
  induction l with
  | nil => simpa [upsertA] using h
  | cons q rest ih =>
      by_cases hqk : q.1 = k
      · simp only [upsertA, if_pos hqk] at h
        rcases List.mem_cons.1 h with h | h
        · exact Or.inl h
        · exact Or.inr (List.mem_cons_of_mem _ h)
      · simp only [upsertA, if_neg hqk] at h
        rcases List.mem_cons.1 h with h | h
        · exact Or.inr (h ▸ List.mem_cons_self _ _)
        · rcases ih h with h | h
          · exact Or.inl h
          · exact Or.inr (List.mem_cons_of_mem _ h)

theorem mem_eraseA {K V : Type} [DecidableEq K] {k : K} {l : List (K × V)}
    {p : K × V} (h : p ∈ eraseA k l) : p ∈ l := by
  induction l with
  | nil => simp [eraseA] at h
  | cons q rest ih =>
      by_cases hqk : q.1 = k
      · simp only [eraseA, if_pos hqk] at h
        exact List.mem_cons_of_mem _ (ih h)
      · simp only [eraseA, if_neg hqk] at h
        rcases List.mem_cons.1 h with h | h
        · exact h ▸ List.mem_cons_self _ _
        · exact List.mem_cons_of_mem _ (ih h)

theorem lookupA_mem {K V : Type} [DecidableEq K] {l : List (K × V)} {q : K} {v : V}
    (h : lookupA l q = some v) : (q, v) ∈ l := by
  induction l with
  | nil => simp [lookupA] at h
  | cons p rest ih =>
      obtain ⟨pk, pv⟩ := p
      by_cases hpq : pk = q
      · subst hpq
        simp [lookupA_cons] at h
        subst h
        exact List.mem_cons_self _ _
      · simp only [lookupA_cons, if_neg hpq] at h
        exact List.mem_cons_of_mem _ (ih h)

theorem lookupA_mapValsK {K V : Type} [DecidableEq K] (f : K → V → V)
    (l : List (K × V)) (q : K) :
    lookupA (mapValsK f l) q = (lookupA l q).map (f q) := by
  induction l with
  | nil => simp [mapValsK, lookupA]
  | cons p rest ih =>
      by_cases hpq : p.1 = q
      · subst hpq
        simp [mapValsK, lookupA]
      · simp only [mapValsK, List.map_cons, lookupA, if_neg hpq]
        simpa [mapValsK] using ih

theorem mem_mapValsK {K V : Type} (f : K → V → V) {l : List (K × V)} {p : K × V}
    (h : p ∈ mapValsK f l) : ∃ q ∈ l, p = (q.1, f q.1 q.2) := by
  rcases List.mem_map.1 h with ⟨q, hq, rfl⟩
  exact ⟨q, hq, rfl⟩

/-! ### Lemmas about the monitor differencing -/

theorem diffDir_ge {c p : Nat} (h : c ≥ p) : diffDir c p = (c - p, c) := by
  simp [diffDir, h]

theorem diffDir_glitch {c p : Nat} (hc : c = 0) (hp : 0 < p) : diffDir c p = (0, p) := by
  subst hc
  have : ¬ (0 ≥ p) := by omega
  simp [diffDir, this]

theorem diffDir_reuse {c p : Nat} (hc : 0 < c) (hcp : c < p) : diffDir c p = (0, c) := by
  have h1 : ¬ (c ≥ p) := by omega
  have h2 : ¬ (c = 0) := by omega
  simp [diffDir, h1, h2]

theorem applyDiff_none {st : List (Nat × FlowState)} {fid : Nat} (origC replyC : Nat)
    (h : lookupA st fid = none) :
    applyDiff st fid origC replyC = (upsertA fid ⟨origC, replyC⟩ st, 0, 0) := by
  simp [applyDiff, h]

theorem applyDiff_some {st : List (Nat × FlowState)} {fid : Nat} {p : FlowState}
    (origC replyC : Nat) (h : lookupA st fid = some p) :
    applyDiff st fid origC replyC
      = (upsertA fid ⟨(diffDir origC p.lastOriginBytes).2, (diffDir replyC p.lastReplyBytes).2⟩ st,
         (diffDir origC p.lastOriginBytes).1, (diffDir replyC p.lastReplyBytes).1) := by
  simp [applyDiff, h]

theorem processEvent_fst_update (st : List (Nat × FlowState)) (ev : CtEvent) (now : ℚ)
    (h : ev.eventType = .update) :
    (processEvent st ev now).1
      = (applyDiff st ev.flowID ev.countersOrigBytes ev.countersReplyBytes).1 := by
  simp only [processEvent, h]
  split <;> simp

theorem processEvent_fst_destroy (st : List (Nat × FlowState)) (ev : CtEvent) (now : ℚ)
    (h : ev.eventType = .destroy) :
    (processEvent st ev now).1
      = eraseA ev.flowID (applyDiff st ev.flowID ev.countersOrigBytes ev.countersReplyBytes).1 := by
  simp only [processEvent, h]
  split <;> simp

/-! ### Claims -/

theorem roundConns_natCast (k : Nat) : roundConns (k : ℚ) = k := by
  have hfloor : ⌊(k : ℚ) + 1/2⌋ = (k : ℤ) := by
    rw [Int.floor_eq_iff]
    constructor
    · push_cast; linarith
    · push_cast; linarith
  simp only [roundConns, truncQ]
  rw [hfloor]
  simp

/-- Claim C6: the periodic tick's active-connection smoothing with
`alpha = 0.2` obeys the seed rule (prior smoothed value 0 and raw `k > 0`
publishes exactly `k` on that tick), otherwise the exponential recurrence
`smoothed := alpha * raw + (1 - alpha) * smoothed`; starting from
smoothed 0 with raw counts 4, 4, 0 the published values are 4, 4, 3 and
the smoothed value after the third tick is 3.2 = 16/5. -/
theorem claim_C6 :
    (∀ k : Nat, 0 < k → smoothStep 0 k = (k : ℚ) ∧ roundConns (smoothStep 0 k) = k) ∧
    (∀ (s : ℚ) (k : Nat), ¬(s = 0 ∧ 0 < k) →
        smoothStep s k = (1/5) * (k : ℚ) + (4/5) * s) ∧
    (smoothStep 0 4 = 4 ∧ roundConns (smoothStep 0 4) = 4 ∧
     smoothStep (smoothStep 0 4) 4 = 4 ∧ roundConns (smoothStep (smoothStep 0 4) 4) = 4 ∧
     smoothStep (smoothStep (smoothStep 0 4) 4) 0 = 16/5 ∧
     roundConns (smoothStep (smoothStep (smoothStep 0 4) 4) 0) = 3) := by
  refine ⟨fun k hk => ?_, fun s k h => ?_, ?_⟩
  · have hstep : smoothStep 0 k = (k : ℚ) := by
      simp [smoothStep, hk]
    exact ⟨hstep, by rw [hstep]; exact roundConns_natCast k⟩
  · have : smoothStep s k = (1/5) * (k : ℚ) + (1 - 1/5) * s := by
      simp only [smoothStep, if_neg h]
    rw [this]; norm_num
  · refine ⟨by norm_num [smoothStep], ?_, ?_, ?_, ?_, ?_⟩
    · have h4 : smoothStep 0 4 = (4 : ℚ) := by norm_num [smoothStep]
      rw [h4]
      exact roundConns_natCast 4
    · norm_num [smoothStep]
    · have h4 : smoothStep (smoothStep 0 4) 4 = (4 : ℚ) := by norm_num [smoothStep]
      rw [h4]
      exact roundConns_natCast 4
    · norm_num [smoothStep]
    · have h32 : smoothStep (smoothStep (smoothStep 0 4) 4) 0 = 16/5 := by
        norm_num [smoothStep]
      rw [h32]
      have hfloor : ⌊(16/5 : ℚ) + 1/2⌋ = (3 : ℤ) := by
        rw [Int.floor_eq_iff]
        norm_num
      simp only [roundConns, truncQ]
      rw [hfloor]
      simp

/-- Witness for C6 at a concrete seed input. -/
theorem claim_C6_witness :
    smoothStep 0 3 = (3 : ℚ) ∧ roundConns (smoothStep 0 3) = 3 ∧
      smoothStep 2 3 = (1/5) * (3 : ℚ) + (4/5) * 2 :=
  ⟨(claim_C6.1 3 (by norm_num)).1, (claim_C6.1 3 (by norm_num)).2,
   claim_C6.2.1 2 3 (by norm_num)⟩

/-- Claim C1: the monitor's per-sample differencing. For a sample with
flow-id `F` and cumulative counters `(O, R)`: with no prior state the
state becomes `(O, R)` and both deltas are zero; with prior state,
independently per direction with current counter `c` and baseline `p`:
if `c ≥ p` the delta is `c - p` and the baseline becomes `c`; if `c = 0`
and `p > 0` the delta is zero and the baseline is kept; if `0 < c < p`
the delta is zero and the baseline becomes `c`. The baseline statements
are about the state `processEvent` leaves behind (stated here for update
samples; destroy samples additionally delete the state, see C2). -/
theorem claim_C1 (st : List (Nat × FlowState)) (ev : CtEvent) (now : ℚ)
    (hupd : ev.eventType = .update) :
    (lookupA st ev.flowID = none →
        originBaseline (processEvent st ev now).1 ev.flowID = some ev.countersOrigBytes ∧
        replyBaseline (processEvent st ev now).1 ev.flowID = some ev.countersReplyBytes ∧
        deltasOf st ev.flowID ev.countersOrigBytes ev.countersReplyBytes = (0, 0)) ∧
    (∀ p : FlowState, lookupA st ev.flowID = some p →
        ((ev.countersOrigBytes ≥ p.lastOriginBytes →
            (deltasOf st ev.flowID ev.countersOrigBytes ev.countersReplyBytes).1
                = ev.countersOrigBytes - p.lastOriginBytes ∧
            originBaseline (processEvent st ev now).1 ev.flowID = some ev.countersOrigBytes) ∧
         (ev.countersOrigBytes = 0 → 0 < p.lastOriginBytes →
            (deltasOf st ev.flowID ev.countersOrigBytes ev.countersReplyBytes).1 = 0 ∧
            originBaseline (processEvent st ev now).1 ev.flowID = some p.lastOriginBytes) ∧
         (0 < ev.countersOrigBytes → ev.countersOrigBytes < p.lastOriginBytes →
            (deltasOf st ev.flowID ev.countersOrigBytes ev.countersReplyBytes).1 = 0 ∧
            originBaseline (processEvent st ev now).1 ev.flowID = some ev.countersOrigBytes)) ∧
        ((ev.countersReplyBytes ≥ p.lastReplyBytes →
            (deltasOf st ev.flowID ev.countersOrigBytes ev.countersReplyBytes).2
                = ev.countersReplyBytes - p.lastReplyBytes ∧
            replyBaseline (processEvent st ev now).1 ev.flowID = some ev.countersReplyBytes) ∧
         (ev.countersReplyBytes = 0 → 0 < p.lastReplyBytes →
            (deltasOf st ev.flowID ev.countersOrigBytes ev.countersReplyBytes).2 = 0 ∧
            replyBaseline (processEvent st ev now).1 ev.flowID = some p.lastReplyBytes) ∧
         (0 < ev.countersReplyBytes → ev.countersReplyBytes < p.lastReplyBytes →
            (deltasOf st ev.flowID ev.countersOrigBytes ev.countersReplyBytes).2 = 0 ∧
            replyBaseline (processEvent st ev now).1 ev.flowID = some ev.countersReplyBytes))) := by
  rw [processEvent_fst_update st ev now hupd]
  constructor
  · intro hnone
    rw [applyDiff_none _ _ hnone, deltasOf, applyDiff_none _ _ hnone]
    simp [originBaseline, replyBaseline, lookupA_upsertA]
  · intro p hp
    rw [deltasOf, applyDiff_some _ _ hp]
    refine ⟨⟨fun hge => ?_, fun hz hpos => ?_, fun hpos hlt => ?_⟩,
            ⟨fun hge => ?_, fun hz hpos => ?_, fun hpos hlt => ?_⟩⟩
    · rw [diffDir_ge hge]
      simp [originBaseline, lookupA_upsertA, diffDir_ge hge]
    · rw [diffDir_glitch hz hpos]
      simp [originBaseline, lookupA_upsertA, diffDir_glitch hz hpos]
    · rw [diffDir_reuse hpos hlt]
      simp [originBaseline, lookupA_upsertA, diffDir_reuse hpos hlt]
    · rw [diffDir_ge hge]
      simp [replyBaseline, lookupA_upsertA, diffDir_ge hge]
    · rw [diffDir_glitch hz hpos]
      simp [replyBaseline, lookupA_upsertA, diffDir_glitch hz hpos]
    · rw [diffDir_reuse hpos hlt]
      simp [replyBaseline, lookupA_upsertA, diffDir_reuse hpos hlt]

/-- Witness for C1: flow-id 7 with stored baselines (10000, 20000)
receives an update sample (10500, 20000); the origin delta is 500 and
the stored origin baseline becomes 10500. -/
theorem claim_C1_witness :
    (deltasOf cMonState 7 10500 20000).1 = 10500 - 10000 ∧
      originBaseline (processEvent cMonState cCtUpd 0).1 7 = some 10500 := by
  have h := ((claim_C1 cMonState cCtUpd 0 rfl).2 ⟨10000, 20000⟩ (by decide)).1.1 (by decide)
  exact h

/-- Claim C2: on a destroy event the same differencing is applied, the
per-flow-id baseline state is deleted, and the resulting deltas are
emitted with kind destroy; for any event of either kind whose two
computed deltas are both zero, nothing is emitted. -/
theorem claim_C2 (st : List (Nat × FlowState)) (ev : CtEvent) (now : ℚ) :
    (ev.eventType = .destroy →
        (processEvent st ev now).1
            = eraseA ev.flowID
                (applyDiff st ev.flowID ev.countersOrigBytes ev.countersReplyBytes).1 ∧
        lookupA (processEvent st ev now).1 ev.flowID = none ∧
        (¬ deltasOf st ev.flowID ev.countersOrigBytes ev.countersReplyBytes = (0, 0) →
            (processEvent st ev now).2 = some
              { srcIP := ev.srcIP, dstIP := ev.dstIP, srcPort := ev.srcPort
                dstPort := ev.dstPort, proto := ev.proto
                originBytes := (deltasOf st ev.flowID ev.countersOrigBytes ev.countersReplyBytes).1
                replyBytes := (deltasOf st ev.flowID ev.countersOrigBytes ev.countersReplyBytes).2
                flowID := ev.flowID, timestamp := now, eventType := .destroy })) ∧
    (deltasOf st ev.flowID ev.countersOrigBytes ev.countersReplyBytes = (0, 0) →
        (processEvent st ev now).2 = none) := by
  constructor
  · intro hdes
    refine ⟨processEvent_fst_destroy st ev now hdes, ?_, ?_⟩
    · rw [processEvent_fst_destroy st ev now hdes, lookupA_eraseA]
      simp
    · intro hne
      have hz : ¬ ((applyDiff st ev.flowID ev.countersOrigBytes ev.countersReplyBytes).2.1 = 0 ∧
          (applyDiff st ev.flowID ev.countersOrigBytes ev.countersReplyBytes).2.2 = 0) := by
        intro hc
        exact hne (by rw [deltasOf, Prod.ext_iff]; exact hc)
      simp only [processEvent, hdes, deltasOf]
      rw [if_neg hz]
  · intro hzero
    have hz : (applyDiff st ev.flowID ev.countersOrigBytes ev.countersReplyBytes).2.1 = 0 ∧
        (applyDiff st ev.flowID ev.countersOrigBytes ev.countersReplyBytes).2.2 = 0 := by
      rw [deltasOf, Prod.ext_iff] at hzero
      exact hzero
    simp only [processEvent]
    rw [if_pos hz]

/-- Witness for C2: a destroy sample for flow-id 7 with counters
(10500, 20000) against stored baselines (10000, 20000) deletes the
baseline and emits deltas (500, 0) with kind destroy, while a destroy
sample whose counters equal the baselines is suppressed. -/
theorem claim_C2_witness :
    lookupA (processEvent cMonState cCtDestroy 0).1 7 = none ∧
      (processEvent cMonState cCtDestroy 0).2 = some
        { srcIP := "192.168.1.10", dstIP := "8.8.8.8", srcPort := 1234
          dstPort := 443, proto := 6
          originBytes := (deltasOf cMonState 7 10500 20000).1
          replyBytes := (deltasOf cMonState 7 10500 20000).2
          flowID := 7, timestamp := 0, eventType := .destroy } ∧
      (processEvent cMonState cCtQuiet 0).2 = none := by
  have h := claim_C2 cMonState cCtDestroy 0
  have h2 := (claim_C2 cMonState cCtQuiet 0).2 (by decide)
  exact ⟨(h.1 rfl).2.1, (h.1 rfl).2.2 (by decide), h2⟩

/-- Claim C10: with an interface configured and an empty LAN-subnet list,
the interface subnet filter rejects every delta event, so `handleEvent`
leaves the aggregator state completely unchanged. -/
theorem claim_C10 (env : Env) (a : Aggregator) (ev : FlowEvent)
    (hiface : a.interfaceName ≠ "") (hsub : a.lanSubnets = []) :
    handleEvent env a ev = a := by
  have hc : checkFlowSubnet a ev.srcIP ev.dstIP = false := by
    simp [checkFlowSubnet, hiface, hsub, inAnySubnet]
  simp [handleEvent, hiface, hc]

/-- Witness for C10: a concrete state with interface `eth0` and no
subnets drops a concrete event addressed to a local client. -/
theorem claim_C10_witness : handleEvent cEnv cIfaceAgg cSmallEvent = cIfaceAgg :=
  claim_C10 cEnv cIfaceAgg cSmallEvent (by decide) rfl

theorem flowsFold_skip (env : Env) (mac : String)
    (acc : List (AggKey × AggVal) × List String) (kf : FlowKey × FlowTracker)
    (h1 : env.getMAC kf.2.srcIP ≠ mac) (h2 : env.getMAC kf.2.dstIP ≠ mac) :
    flowsFold env mac acc kf = acc := by
  simp [flowsFold, h1, h2]

theorem foldl_flowsFold_skip (env : Env) (mac : String) (l : List (FlowKey × FlowTracker))
    (h : ∀ kf ∈ l, env.getMAC kf.2.srcIP ≠ mac ∧ env.getMAC kf.2.dstIP ≠ mac)
    (acc : List (AggKey × AggVal) × List String) :
    l.foldl (flowsFold env mac) acc = acc := by
  induction l generalizing acc with
  | nil => rfl
  | cons kf rest ih =>
      have hh := h kf (List.mem_cons_self _ _)
      rw [List.foldl_cons, flowsFold_skip env mac acc kf hh.1 hh.2]
      exact ih (fun p hp => h p (List.mem_cons_of_mem _ hp)) acc

/-- Claim C7: with the neighbor table held fixed, `resetClientByMAC m`
followed by `flowsByMAC m` yields an empty flow list, a zero
active-connection count and no local IPs, and `clientWithSession m`
yields absent. -/
theorem claim_C7 (env : Env) (a : Aggregator) (mac : String) :
    getFlowsByMAC env (resetClientByMAC env a mac) mac = ([], 0, []) ∧
      getClientWithSession (resetClientByMAC env a mac) mac = none := by
  constructor
  · have hskip : ∀ kf ∈ (resetClientByMAC env a mac).flows,
        env.getMAC kf.2.srcIP ≠ mac ∧ env.getMAC kf.2.dstIP ≠ mac := by
      intro kf hkf
      have hmem : kf ∈ a.flows.filter (fun p => ¬ flowTouchesMAC env mac p.2) := hkf
      have hp := (List.mem_filter.1 hmem).2
      have hp2 : ¬ flowTouchesMAC env mac kf.2 := by
        simpa using hp
      rw [flowTouchesMAC] at hp2
      push_neg at hp2
      exact hp2
    rw [getFlowsByMAC, foldl_flowsFold_skip env mac _ hskip]
    simp
  · rw [getClientWithSession]
    show lookupA (eraseA mac a.clients) mac = none
    rw [lookupA_eraseA]
    simp

/-- Claim C8: `resetSessionByMAC m` zeroes exactly the session counters
of client `m` (its record is otherwise unchanged, in particular its
cumulative totals), leaves every other client and the global WAN totals
unchanged, and deletes exactly the flow trackers one of whose endpoint
IPs resolves to `m`. -/
theorem claim_C8 (env : Env) (a : Aggregator) (mac : String) :
    lookupA (resetSessionByMAC env a mac).clients mac
        = (lookupA a.clients mac).map
            (fun c => { c with sessionDownload := 0, sessionUpload := 0 }) ∧
    (∀ m, m ≠ mac → lookupA (resetSessionByMAC env a mac).clients m = lookupA a.clients m) ∧
    (resetSessionByMAC env a mac).globalTotalUpload = a.globalTotalUpload ∧
    (resetSessionByMAC env a mac).globalTotalDownload = a.globalTotalDownload ∧
    (∀ kf : FlowKey × FlowTracker,
        kf ∈ (resetSessionByMAC env a mac).flows ↔
          kf ∈ a.flows ∧ ¬ flowTouchesMAC env mac kf.2) := by
  refine ⟨?_, ?_, rfl, rfl, ?_⟩
  · show lookupA (match lookupA a.clients mac with
      | some c => upsertA mac { c with sessionDownload := 0, sessionUpload := 0 } a.clients
      | none => a.clients) mac = _
    cases h : lookupA a.clients mac with
    | none => simp [h]
    | some c => simp [lookupA_upsertA]
  · intro m hm
    show lookupA (match lookupA a.clients mac with
      | some c => upsertA mac { c with sessionDownload := 0, sessionUpload := 0 } a.clients
      | none => a.clients) m = _
    cases h : lookupA a.clients mac with
    | none => rfl
    | some c =>
        rw [lookupA_upsertA, if_neg (fun hc => hm hc.symm)]
  · intro kf
    show kf ∈ a.flows.filter (fun p => ¬ flowTouchesMAC env mac p.2) ↔ _
    rw [List.mem_filter]
    simp

/-- Witness for C8 at a concrete state holding one attributed client. -/
theorem claim_C8_witness :
    lookupA (resetSessionByMAC cEnv (runOps 0 [Op.event cEnv cSmallEvent])
          "aa:aa:aa:aa:aa:aa").clients "aa:aa:aa:aa:aa:aa"
        = (lookupA (runOps 0 [Op.event cEnv cSmallEvent]).clients "aa:aa:aa:aa:aa:aa").map
            (fun c => { c with sessionDownload := 0, sessionUpload := 0 }) ∧
      lookupA (resetSessionByMAC cEnv (runOps 0 [Op.event cEnv cSmallEvent])
          "aa:aa:aa:aa:aa:aa").clients "bb:bb:bb:bb:bb:bb"
        = lookupA (runOps 0 [Op.event cEnv cSmallEvent]).clients "bb:bb:bb:bb:bb:bb" :=
  ⟨(claim_C8 cEnv (runOps 0 [Op.event cEnv cSmallEvent]) "aa:aa:aa:aa:aa:aa").1,
   (claim_C8 cEnv (runOps 0 [Op.event cEnv cSmallEvent]) "aa:aa:aa:aa:aa:aa").2.1
     "bb:bb:bb:bb:bb:bb" (by decide)⟩

theorem getClientVal_upsert_ne (a : Aggregator) (k : String) (v : ClientStats)
    (mac : String) (now : ℚ) (h : k ≠ mac) :
    getClientVal { a with clients := upsertA k v a.clients } mac now
      = getClientVal a mac now := by
  simp [getClientVal, lookupA_upsertA, h, freshClient]

/-- Claim C3: attribution of a delta event that reaches `updateStats`.
With `srcLocal` = the source IP resolves to a MAC and `dstLocal` = the
destination IP resolves to a MAC distinct from the source's: a local
source's cumulative and session upload grow by the origin delta and its
downloads by the reply delta; a local destination's downloads grow by
the origin delta and its uploads by the reply delta; the global WAN
totals change exactly when exactly one side is local, upload/download
oriented by which side it is. -/
theorem claim_C3 (env : Env) (a : Aggregator) (ft : FlowTracker) (dO dR : Nat) :
    (env.getMAC ft.srcIP ≠ "" →
        clientCounters (updateStats env a ft dO dR) (env.getMAC ft.srcIP)
          = ((getClientVal a (env.getMAC ft.srcIP) env.now).totalUpload + dO,
             (getClientVal a (env.getMAC ft.srcIP) env.now).totalDownload + dR,
             (getClientVal a (env.getMAC ft.srcIP) env.now).sessionUpload + dO,
             (getClientVal a (env.getMAC ft.srcIP) env.now).sessionDownload + dR)) ∧
    (env.getMAC ft.dstIP ≠ "" ∧ env.getMAC ft.dstIP ≠ env.getMAC ft.srcIP →
        clientCounters (updateStats env a ft dO dR) (env.getMAC ft.dstIP)
          = ((getClientVal a (env.getMAC ft.dstIP) env.now).totalUpload + dR,
             (getClientVal a (env.getMAC ft.dstIP) env.now).totalDownload + dO,
             (getClientVal a (env.getMAC ft.dstIP) env.now).sessionUpload + dR,
             (getClientVal a (env.getMAC ft.dstIP) env.now).sessionDownload + dO)) ∧
    (env.getMAC ft.srcIP ≠ "" →
      ¬ (env.getMAC ft.dstIP ≠ "" ∧ env.getMAC ft.dstIP ≠ env.getMAC ft.srcIP) →
        (updateStats env a ft dO dR).globalTotalUpload = a.globalTotalUpload + dO ∧
        (updateStats env a ft dO dR).globalTotalDownload = a.globalTotalDownload + dR) ∧
    (env.getMAC ft.dstIP ≠ "" ∧ env.getMAC ft.dstIP ≠ env.getMAC ft.srcIP →
      env.getMAC ft.srcIP = "" →
        (updateStats env a ft dO dR).globalTotalDownload = a.globalTotalDownload + dO ∧
        (updateStats env a ft dO dR).globalTotalUpload = a.globalTotalUpload + dR) ∧
    ((env.getMAC ft.srcIP ≠ ""
        ↔ env.getMAC ft.dstIP ≠ "" ∧ env.getMAC ft.dstIP ≠ env.getMAC ft.srcIP) →
        (updateStats env a ft dO dR).globalTotalUpload = a.globalTotalUpload ∧
        (updateStats env a ft dO dR).globalTotalDownload = a.globalTotalDownload) := by
  refine ⟨fun hS => ?_, fun hD => ?_, fun hS hnD => ?_, fun hD hnS => ?_, fun hiff => ?_⟩
  · by_cases hD : env.getMAC ft.dstIP ≠ "" ∧ env.getMAC ft.dstIP ≠ env.getMAC ft.srcIP
    · simp only [updateStats, if_pos hS, if_pos hD]
      simp [clientCounters, countersIn, lookupA_upsertA, hD.2, bumpSrc, hS, hD.1]
    · simp only [updateStats, if_pos hS, if_neg hD]
      simp [clientCounters, countersIn, lookupA_upsertA, bumpSrc, hS, hD]
  · by_cases hS : env.getMAC ft.srcIP ≠ ""
    · simp only [updateStats, if_pos hS, if_pos hD]
      rw [getClientVal_upsert_ne _ _ _ _ _ (fun h => hD.2 h.symm)]
      simp [clientCounters, countersIn, lookupA_upsertA, bumpDst, hS, hD.1, hD.2]
    · simp only [updateStats, if_neg hS, if_pos hD]
      simp [clientCounters, countersIn, lookupA_upsertA, bumpDst, hS, hD.1, hD.2]
  · simp only [updateStats, if_pos hS, if_neg hnD, if_pos (And.intro hS hnD)]
    exact ⟨trivial, trivial⟩
  · have hns : ¬ (env.getMAC ft.srcIP ≠ "") := fun h => h hnS
    have hc1 : ¬ ((env.getMAC ft.srcIP ≠ "") ∧
        ¬ (env.getMAC ft.dstIP ≠ "" ∧ env.getMAC ft.dstIP ≠ env.getMAC ft.srcIP)) :=
      fun h => hns h.1
    simp only [updateStats, if_neg hns, if_pos hD, if_neg hc1, if_pos (And.intro hD hns)]
    exact ⟨trivial, trivial⟩
  · by_cases hS : env.getMAC ft.srcIP ≠ ""
    · have hD := hiff.1 hS
      have hc1 : ¬ ((env.getMAC ft.srcIP ≠ "") ∧
          ¬ (env.getMAC ft.dstIP ≠ "" ∧ env.getMAC ft.dstIP ≠ env.getMAC ft.srcIP)) :=
        fun h => h.2 hD
      have hc2 : ¬ ((env.getMAC ft.dstIP ≠ "" ∧ env.getMAC ft.dstIP ≠ env.getMAC ft.srcIP) ∧
          ¬ (env.getMAC ft.srcIP ≠ "")) := fun h => h.2 hS
      simp only [updateStats, if_pos hS, if_pos hD, if_neg hc1, if_neg hc2]
      exact ⟨trivial, trivial⟩
    · have hD : ¬ (env.getMAC ft.dstIP ≠ "" ∧ env.getMAC ft.dstIP ≠ env.getMAC ft.srcIP) :=
        fun h => hS (hiff.2 h)
      have hc1 : ¬ ((env.getMAC ft.srcIP ≠ "") ∧
          ¬ (env.getMAC ft.dstIP ≠ "" ∧ env.getMAC ft.dstIP ≠ env.getMAC ft.srcIP)) :=
        fun h => hS h.1
      have hc2 : ¬ ((env.getMAC ft.dstIP ≠ "" ∧ env.getMAC ft.dstIP ≠ env.getMAC ft.srcIP) ∧
          ¬ (env.getMAC ft.srcIP ≠ "")) := fun h => hD h.1
      simp only [updateStats, if_neg hS, if_neg hD, if_neg hc1, if_neg hc2]
      exact ⟨trivial, trivial⟩

/-- Witness for C3: the spec's attribution scenario — client MAC
`aa:aa:aa:aa:aa:aa` at 192.168.1.10 talking to external 8.8.8.8 with
origin delta 1000 and reply delta 9000 gains 1000 upload and 9000
download, and the global WAN totals gain the same. -/
theorem claim_C3_witness :
    clientCounters (updateStats cEnv (initAggregator 0) (newTracker cEnv cSmallEvent) 1000 9000)
        (cEnv.getMAC (newTracker cEnv cSmallEvent).srcIP)
      = ((getClientVal (initAggregator 0)
            (cEnv.getMAC (newTracker cEnv cSmallEvent).srcIP) cEnv.now).totalUpload + 1000,
         (getClientVal (initAggregator 0)
            (cEnv.getMAC (newTracker cEnv cSmallEvent).srcIP) cEnv.now).totalDownload + 9000,
         (getClientVal (initAggregator 0)
            (cEnv.getMAC (newTracker cEnv cSmallEvent).srcIP) cEnv.now).sessionUpload + 1000,
         (getClientVal (initAggregator 0)
            (cEnv.getMAC (newTracker cEnv cSmallEvent).srcIP) cEnv.now).sessionDownload + 9000) ∧
    (updateStats cEnv (initAggregator 0) (newTracker cEnv cSmallEvent) 1000 9000).globalTotalUpload
        = (initAggregator 0).globalTotalUpload + 1000 ∧
    (updateStats cEnv (initAggregator 0)
        (newTracker cEnv cSmallEvent) 1000 9000).globalTotalDownload
        = (initAggregator 0).globalTotalDownload + 9000 :=
  ⟨(claim_C3 cEnv (initAggregator 0) (newTracker cEnv cSmallEvent) 1000 9000).1 (by decide),
   ((claim_C3 cEnv (initAggregator 0) (newTracker cEnv cSmallEvent) 1000 9000).2.2.1
       (by decide) (by decide)).1,
   ((claim_C3 cEnv (initAggregator 0) (newTracker cEnv cSmallEvent) 1000 9000).2.2.1
       (by decide) (by decide)).2⟩

/-! ### Lemmas for the safety cap -/

theorem capDelta_big {d : Nat} (h : SafeCap < d) : capDelta d = 0 := if_pos h

theorem capDelta_small {d : Nat} (h : d ≤ SafeCap) : capDelta d = d := if_neg (by omega)

theorem capDelta_idem (d : Nat) : capDelta (capDelta d) = capDelta d := by
  by_cases h : SafeCap < d
  · rw [capDelta_big h, capDelta_small (by omega)]
  · rw [capDelta_small (by omega : d ≤ SafeCap), capDelta_small (by omega : d ≤ SafeCap)]

theorem counters_getClientVal (a : Aggregator) (mac : String) (now : ℚ) :
    ((getClientVal a mac now).totalUpload, (getClientVal a mac now).totalDownload,
     (getClientVal a mac now).sessionUpload, (getClientVal a mac now).sessionDownload)
      = countersIn a.clients mac := by
  cases h : lookupA a.clients mac <;> simp [getClientVal, countersIn, h, freshClient]

theorem counters_bumpSrc_zero (c : ClientStats) (now : ℚ) :
    ((bumpSrc c 0 0 now).totalUpload, (bumpSrc c 0 0 now).totalDownload,
     (bumpSrc c 0 0 now).sessionUpload, (bumpSrc c 0 0 now).sessionDownload)
      = (c.totalUpload, c.totalDownload, c.sessionUpload, c.sessionDownload) := by
  simp [bumpSrc]

theorem counters_bumpDst_zero (c : ClientStats) (now : ℚ) :
    ((bumpDst c 0 0 now).totalUpload, (bumpDst c 0 0 now).totalDownload,
     (bumpDst c 0 0 now).sessionUpload, (bumpDst c 0 0 now).sessionDownload)
      = (c.totalUpload, c.totalDownload, c.sessionUpload, c.sessionDownload) := by
  simp [bumpDst]

theorem countersIn_upsert_same (cl : List (String × ClientStats)) (mac m : String)
    (c' : ClientStats)
    (hc : (c'.totalUpload, c'.totalDownload, c'.sessionUpload, c'.sessionDownload)
        = countersIn cl mac) :
    countersIn (upsertA mac c' cl) m = countersIn cl m := by
  by_cases hm : mac = m
  · subst hm
    have hl : lookupA (upsertA mac c' cl) mac = some c' := by
      rw [lookupA_upsertA]
      simp
    calc countersIn (upsertA mac c' cl) mac
        = (c'.totalUpload, c'.totalDownload, c'.sessionUpload, c'.sessionDownload) := by
          simp [countersIn, hl]
      _ = countersIn cl mac := hc
  · have hl : lookupA (upsertA mac c' cl) m = lookupA cl m := by
      rw [lookupA_upsertA, if_neg hm]
    simp [countersIn, hl]

theorem totalsIn_upsert_same (fl : List (FlowKey × FlowTracker)) (key k : FlowKey)
    (f' : FlowTracker)
    (hf : (f'.totalOriginBytes, f'.totalReplyBytes) = totalsIn fl key) :
    totalsIn (upsertA key f' fl) k = totalsIn fl k := by
  by_cases hk : key = k
  · subst hk
    have hl : lookupA (upsertA key f' fl) key = some f' := by
      rw [lookupA_upsertA]
      simp
    calc totalsIn (upsertA key f' fl) key
        = (f'.totalOriginBytes, f'.totalReplyBytes) := by simp [totalsIn, hl]
      _ = totalsIn fl key := hf
  · have hl : lookupA (upsertA key f' fl) k = lookupA fl k := by
      rw [lookupA_upsertA, if_neg hk]
    simp [totalsIn, hl]

theorem updateStats_flows (env : Env) (a : Aggregator) (ft : FlowTracker) (dO dR : Nat) :
    (updateStats env a ft dO dR).flows = a.flows := by
  by_cases h1 : env.getMAC ft.srcIP ≠ "" <;>
    by_cases h2 : env.getMAC ft.dstIP ≠ "" ∧ env.getMAC ft.dstIP ≠ env.getMAC ft.srcIP <;>
      simp [updateStats, h1, h2]

theorem updateStats_global_zero (env : Env) (a : Aggregator) (ft : FlowTracker) :
    (updateStats env a ft 0 0).globalTotalUpload = a.globalTotalUpload ∧
      (updateStats env a ft 0 0).globalTotalDownload = a.globalTotalDownload := by
  by_cases h1 : env.getMAC ft.srcIP ≠ "" <;>
    by_cases h2 : env.getMAC ft.dstIP ≠ "" ∧ env.getMAC ft.dstIP ≠ env.getMAC ft.srcIP <;>
      simp [updateStats, h1, h2]

theorem updateStats_clients_zero (env : Env) (a : Aggregator) (ft : FlowTracker) (m : String) :
    countersIn (updateStats env a ft 0 0).clients m = countersIn a.clients m := by
  by_cases h1 : env.getMAC ft.srcIP ≠ "" <;>
    by_cases h2 : env.getMAC ft.dstIP ≠ "" ∧ env.getMAC ft.dstIP ≠ env.getMAC ft.srcIP
  · simp [updateStats, h1, h2]
    rw [countersIn_upsert_same, countersIn_upsert_same]
    · rw [counters_bumpSrc_zero, counters_getClientVal]
    · rw [counters_bumpDst_zero, counters_getClientVal]
  · simp [updateStats, h1, h2]
    rw [countersIn_upsert_same]
    rw [counters_bumpSrc_zero, counters_getClientVal]
  · simp [updateStats, h1, h2]
    rw [countersIn_upsert_same]
    rw [counters_bumpDst_zero, counters_getClientVal]
  · simp [updateStats, h1, h2]

theorem handleEvent_cases (env : Env) (a : Aggregator) (ev : FlowEvent) :
    handleEvent env a ev = a ∨
    (∃ ft, lookupA a.flows (mkFlowKey ev) = some ft ∧
        handleEvent env a ev = accumulate env a (mkFlowKey ev) ft ev) ∨
    (lookupA a.flows (mkFlowKey ev) = none ∧
        handleEvent env a ev = accumulate env a (mkFlowKey ev) (newTracker env ev) ev) := by
  by_cases h1 : a.interfaceName ≠ "" ∧ ¬ checkFlowSubnet a ev.srcIP ev.dstIP
  · refine Or.inl ?_
    simp only [handleEvent]
    rw [if_pos h1]
  by_cases h2 : env.isMulticast ev.dstIP = true
  · refine Or.inl ?_
    simp only [handleEvent]
    rw [if_neg h1, if_pos h2]
  by_cases h3 : env.isBcast ev.dstIP = true
  · refine Or.inl ?_
    simp only [handleEvent]
    rw [if_neg h1, if_neg h2, if_pos h3]
  cases hlk : lookupA a.flows (mkFlowKey ev) with
  | some ft =>
      refine Or.inr (Or.inl ⟨ft, rfl, ?_⟩)
      simp only [handleEvent]
      rw [if_neg h1, if_neg h2, if_neg h3]
      simp only [hlk]
  | none =>
      by_cases h4 : a.ignoreLAN ∧ a.lanSubnets.length > 0
      · by_cases h5 : (inAnySubnet a.lanSubnets ev.srcIP
            && inAnySubnet a.lanSubnets ev.dstIP) = true
        · refine Or.inl ?_
          simp only [handleEvent]
          rw [if_neg h1, if_neg h2, if_neg h3]
          simp only [hlk]
          rw [if_pos h4, if_pos h5]
        · refine Or.inr (Or.inr ⟨rfl, ?_⟩)
          simp only [handleEvent]
          rw [if_neg h1, if_neg h2, if_neg h3]
          simp only [hlk]
          rw [if_pos h4, if_neg h5]
      · by_cases h6 : a.ignoreLAN ∧ env.getMAC ev.srcIP ≠ "" ∧ env.getMAC ev.dstIP ≠ ""
        · refine Or.inl ?_
          simp only [handleEvent]
          rw [if_neg h1, if_neg h2, if_neg h3]
          simp only [hlk]
          rw [if_neg h4, if_pos h6]
        · refine Or.inr (Or.inr ⟨rfl, ?_⟩)
          simp only [handleEvent]
          rw [if_neg h1, if_neg h2, if_neg h3]
          simp only [hlk]
          rw [if_neg h4, if_neg h6]

theorem accumulate_bytes_eq (env : Env) (a : Aggregator) (key : FlowKey) (ft : FlowTracker)
    (ev : FlowEvent) (o r : Nat) (ho : capDelta o = capDelta ev.originBytes)
    (hr : capDelta r = capDelta ev.replyBytes) :
    accumulate env a key ft { ev with originBytes := o, replyBytes := r }
      = accumulate env a key ft ev := by
  simp [accumulate, ho, hr]

theorem handleEvent_bytes_eq (env : Env) (a : Aggregator) (ev : FlowEvent) (o r : Nat)
    (ho : capDelta o = capDelta ev.originBytes) (hr : capDelta r = capDelta ev.replyBytes) :
    handleEvent env a { ev with originBytes := o, replyBytes := r } = handleEvent env a ev := by
  simp [handleEvent, mkFlowKey, newTracker, accumulate, ho, hr]

theorem accumulate_zero_frame (env : Env) (a : Aggregator) (key : FlowKey) (ft : FlowTracker)
    (ev : FlowEvent) (ho : capDelta ev.originBytes = 0) (hr : capDelta ev.replyBytes = 0)
    (hft : (ft.totalOriginBytes, ft.totalReplyBytes) = totalsIn a.flows key) :
    (∀ k, totalsIn (accumulate env a key ft ev).flows k = totalsIn a.flows k) ∧
    (∀ m, countersIn (accumulate env a key ft ev).clients m = countersIn a.clients m) ∧
    (accumulate env a key ft ev).globalTotalUpload = a.globalTotalUpload ∧
    (accumulate env a key ft ev).globalTotalDownload = a.globalTotalDownload := by
  have hacc : accumulate env a key ft ev = updateStats env
      { a with flows := upsertA key { ft with lastSeen := env.now } a.flows }
      { ft with lastSeen := env.now } 0 0 := by
    simp [accumulate, ho, hr]
  rw [hacc]
  refine ⟨fun k => ?_, fun m => ?_, ?_, ?_⟩
  · rw [updateStats_flows]
    exact totalsIn_upsert_same a.flows key k _ hft
  · rw [updateStats_clients_zero]
  · exact (updateStats_global_zero env _ _).1
  · exact (updateStats_global_zero env _ _).2

theorem handleEvent_zero_frame (env : Env) (a : Aggregator) (ev : FlowEvent)
    (ho : capDelta ev.originBytes = 0) (hr : capDelta ev.replyBytes = 0) :
    (∀ k, totalsIn (handleEvent env a ev).flows k = totalsIn a.flows k) ∧
    (∀ m, countersIn (handleEvent env a ev).clients m = countersIn a.clients m) ∧
    (handleEvent env a ev).globalTotalUpload = a.globalTotalUpload ∧
    (handleEvent env a ev).globalTotalDownload = a.globalTotalDownload := by
  rcases handleEvent_cases env a ev with h | ⟨ft, hlk, h⟩ | ⟨hlk, h⟩
  · rw [h]
    exact ⟨fun _ => rfl, fun _ => rfl, rfl, rfl⟩
  · rw [h]
    exact accumulate_zero_frame env a _ ft ev ho hr (by simp [totalsIn, hlk])
  · rw [h]
    exact accumulate_zero_frame env a _ _ ev ho hr (by simp [totalsIn, hlk, newTracker])

/-- Claim C4: each per-event direction delta strictly greater than 1 GiB
is replaced by 0 before accumulation — the event behaves exactly as if
that delta were 0, and an event with both deltas clamped changes no
flow-tracker cumulative total, no client byte counter, and no global WAN
total — while deltas of at most 1 GiB pass the cap unchanged. -/
theorem claim_C4 (env : Env) (a : Aggregator) (ev : FlowEvent) :
    handleEvent env a ev = handleEvent env a (capEvent ev) ∧
    (SafeCap < ev.originBytes →
        handleEvent env a ev = handleEvent env a { ev with originBytes := 0 }) ∧
    (SafeCap < ev.replyBytes →
        handleEvent env a ev = handleEvent env a { ev with replyBytes := 0 }) ∧
    (capDelta ev.originBytes = 0 → capDelta ev.replyBytes = 0 →
        (∀ key, trackerTotals (handleEvent env a ev) key = trackerTotals a key) ∧
        (∀ m, clientCounters (handleEvent env a ev) m = clientCounters a m) ∧
        (handleEvent env a ev).globalTotalUpload = a.globalTotalUpload ∧
        (handleEvent env a ev).globalTotalDownload = a.globalTotalDownload) ∧
    (ev.originBytes ≤ SafeCap → ev.replyBytes ≤ SafeCap → capEvent ev = ev) := by
  refine ⟨?_, fun hbig => ?_, fun hbig => ?_, fun ho hr => ?_, fun hso hsr => ?_⟩
  · exact (handleEvent_bytes_eq env a ev (capDelta ev.originBytes) (capDelta ev.replyBytes)
      (capDelta_idem ev.originBytes) (capDelta_idem ev.replyBytes)).symm
  · have h0 : capDelta 0 = capDelta ev.originBytes := by
      rw [capDelta_big hbig, capDelta_small (by omega)]
    exact (handleEvent_bytes_eq env a ev 0 ev.replyBytes h0 rfl).symm
  · have h0 : capDelta 0 = capDelta ev.replyBytes := by
      rw [capDelta_big hbig, capDelta_small (by omega)]
    exact (handleEvent_bytes_eq env a ev ev.originBytes 0 rfl h0).symm
  · exact handleEvent_zero_frame env a ev ho hr
  · simp [capEvent, capDelta_small hso, capDelta_small hsr]

/-- Witness for C4: an event whose origin delta exceeds the cap by one
byte leaves the byte counters of a local client unchanged and behaves
like the same event with a zero origin delta, while the in-range
attribution event passes the cap untouched. -/
theorem claim_C4_witness :
    handleEvent cEnv (initAggregator 0) cBigEvent
        = handleEvent cEnv (initAggregator 0) { cBigEvent with originBytes := 0 } ∧
    clientCounters (handleEvent cEnv (initAggregator 0) cBigEvent) "aa:aa:aa:aa:aa:aa"
        = clientCounters (initAggregator 0) "aa:aa:aa:aa:aa:aa" ∧
    capEvent cSmallEvent = cSmallEvent :=
  ⟨(claim_C4 cEnv (initAggregator 0) cBigEvent).2.1 (by decide),
   ((claim_C4 cEnv (initAggregator 0) cBigEvent).2.2.2.1 (by decide) (by decide)).2.1
     "aa:aa:aa:aa:aa:aa",
   (claim_C4 cEnv (initAggregator 0) cSmallEvent).2.2.2.2 (by decide) (by decide)⟩

/-! ### Preservation of the session-vs-cumulative invariant -/

theorem safeSub_le (x y : Nat) : safeSub x y ≤ x := by
  unfold safeSub
  split <;> omega

theorem sessionInv_init (now : ℚ) : SessionInv (initAggregator now) := by
  refine ⟨?_, ?_⟩
  · intro p hp
    exact absurd hp (List.not_mem_nil p)
  · intro p hp
    exact absurd hp (List.not_mem_nil p)

theorem clientsInv_upsert {cl : List (String × ClientStats)} {mac : String} {c' : ClientStats}
    (hcl : ∀ p ∈ cl, ClientInv p.2) (hc' : ClientInv c') :
    ∀ p ∈ upsertA mac c' cl, ClientInv p.2 := by
  intro p hp
  rcases mem_upsertA hp with rfl | hp
  · exact hc'
  · exact hcl p hp

theorem flowsInv_upsert {fl : List (FlowKey × FlowTracker)} {key : FlowKey} {f' : FlowTracker}
    (hfl : ∀ p ∈ fl, TrackerInv p.2) (hf' : TrackerInv f') :
    ∀ p ∈ upsertA key f' fl, TrackerInv p.2 := by
  intro p hp
  rcases mem_upsertA hp with rfl | hp
  · exact hf'
  · exact hfl p hp

theorem clientInv_bumpSrc (c : ClientStats) (dO dR : Nat) (now : ℚ) (h : ClientInv c) :
    ClientInv (bumpSrc c dO dR now) := by
  obtain ⟨h1, h2⟩ := h
  refine ⟨?_, ?_⟩
  · show c.sessionUpload + dO ≤ c.totalUpload + dO
    omega
  · show c.sessionDownload + dR ≤ c.totalDownload + dR
    omega

theorem clientInv_bumpDst (c : ClientStats) (dO dR : Nat) (now : ℚ) (h : ClientInv c) :
    ClientInv (bumpDst c dO dR now) := by
  obtain ⟨h1, h2⟩ := h
  refine ⟨?_, ?_⟩
  · show c.sessionUpload + dR ≤ c.totalUpload + dR
    omega
  · show c.sessionDownload + dO ≤ c.totalDownload + dO
    omega

theorem clientInv_getClientVal (a : Aggregator) (mac : String) (now : ℚ)
    (hc : ∀ p ∈ a.clients, ClientInv p.2) : ClientInv (getClientVal a mac now) := by
  unfold getClientVal
  cases hl : lookupA a.clients mac with
  | some c => exact hc (mac, c) (lookupA_mem hl)
  | none => exact ⟨Nat.zero_le _, Nat.zero_le _⟩

theorem updateStats_clients_inv (env : Env) (a : Aggregator) (ft : FlowTracker) (dO dR : Nat)
    (hc : ∀ p ∈ a.clients, ClientInv p.2) :
    ∀ p ∈ (updateStats env a ft dO dR).clients, ClientInv p.2 := by
  intro p hp
  by_cases h1 : env.getMAC ft.srcIP ≠ "" <;>
    by_cases h2 : env.getMAC ft.dstIP ≠ "" ∧ env.getMAC ft.dstIP ≠ env.getMAC ft.srcIP
  · simp only [updateStats] at hp
    rw [if_pos h1, if_pos h2, if_neg (fun hcc : _ ∧ ¬ _ => hcc.2 h2),
      if_neg (fun hcc : _ ∧ ¬ _ => hcc.2 h1)] at hp
    have inv1 : ∀ q ∈ upsertA (env.getMAC ft.srcIP)
        (bumpSrc (getClientVal a (env.getMAC ft.srcIP) env.now) dO dR env.now) a.clients,
        ClientInv q.2 :=
      clientsInv_upsert hc (clientInv_bumpSrc _ _ _ _ (clientInv_getClientVal a _ _ hc))
    exact clientsInv_upsert inv1
      (clientInv_bumpDst _ _ _ _ (clientInv_getClientVal _ _ _ inv1)) p hp
  · simp only [updateStats] at hp
    rw [if_pos h1, if_neg h2, if_pos (And.intro h1 h2)] at hp
    exact clientsInv_upsert hc
      (clientInv_bumpSrc _ _ _ _ (clientInv_getClientVal a _ _ hc)) p hp
  · simp only [updateStats] at hp
    rw [if_neg h1, if_pos h2, if_neg (fun hcc : _ ∧ ¬ _ => h1 hcc.1),
      if_pos (And.intro h2 h1)] at hp
    exact clientsInv_upsert hc
      (clientInv_bumpDst _ _ _ _ (clientInv_getClientVal a _ _ hc)) p hp
  · simp only [updateStats] at hp
    rw [if_neg h1, if_neg h2, if_neg (fun hcc : _ ∧ ¬ _ => h1 hcc.1),
      if_neg (fun hcc : _ ∧ ¬ _ => h2 hcc.1)] at hp
    exact hc p hp

theorem trackerInv_accumStep (ft : FlowTracker) (x y : Nat) (now : ℚ) (h : TrackerInv ft) :
    TrackerInv { ft with lastSeen := now
                         totalOriginBytes := ft.totalOriginBytes + x
                         totalReplyBytes := ft.totalReplyBytes + y } := by
  obtain ⟨h1, h2, _, _⟩ := h
  refine ⟨?_, ?_, safeSub_le _ _, safeSub_le _ _⟩
  · show ft.sessionStartOriginBytes ≤ ft.totalOriginBytes + x
    omega
  · show ft.sessionStartReplyBytes ≤ ft.totalReplyBytes + y
    omega

theorem accumulate_preserves (env : Env) (a : Aggregator) (key : FlowKey) (ft : FlowTracker)
    (ev : FlowEvent) (hc : ∀ p ∈ a.clients, ClientInv p.2)
    (hf : ∀ p ∈ a.flows, TrackerInv p.2) (hft : TrackerInv ft) :
    SessionInv (accumulate env a key ft ev) := by
  unfold accumulate
  refine ⟨updateStats_clients_inv env _ _ _ _ hc, ?_⟩
  intro p hp
  rw [updateStats_flows] at hp
  exact flowsInv_upsert hf (trackerInv_accumStep ft _ _ _ hft) p hp

theorem trackerInv_newTracker (env : Env) (ev : FlowEvent) : TrackerInv (newTracker env ev) := by
  refine ⟨Nat.le_refl _, Nat.le_refl _, safeSub_le _ _, safeSub_le _ _⟩

theorem handleEvent_preserves (env : Env) (a : Aggregator) (ev : FlowEvent)
    (h : SessionInv a) : SessionInv (handleEvent env a ev) := by
  rcases handleEvent_cases env a ev with heq | ⟨ft, hlk, heq⟩ | ⟨hlk, heq⟩
  · rw [heq]; exact h
  · rw [heq]
    exact accumulate_preserves env a _ ft ev h.1 h.2 (h.2 _ (lookupA_mem hlk))
  · rw [heq]
    exact accumulate_preserves env a _ _ ev h.1 h.2 (trackerInv_newTracker env ev)

theorem clientSpeedStep_counters (now : ℚ) (c : ClientStats) :
    (clientSpeedStep now c).totalUpload = c.totalUpload ∧
    (clientSpeedStep now c).totalDownload = c.totalDownload ∧
    (clientSpeedStep now c).sessionUpload = c.sessionUpload ∧
    (clientSpeedStep now c).sessionDownload = c.sessionDownload := by
  simp only [clientSpeedStep]
  split_ifs <;> exact ⟨rfl, rfl, rfl, rfl⟩

theorem clientInv_clientSpeedStep (now : ℚ) (c : ClientStats) (h : ClientInv c) :
    ClientInv (clientSpeedStep now c) := by
  have hc := clientSpeedStep_counters now c
  unfold ClientInv at h ⊢
  rw [hc.1, hc.2.1, hc.2.2.1, hc.2.2.2]
  exact h

theorem flowSpeedStep_bytes (now : ℚ) (f : FlowTracker) :
    (flowSpeedStep now f).totalOriginBytes = f.totalOriginBytes ∧
    (flowSpeedStep now f).totalReplyBytes = f.totalReplyBytes ∧
    (flowSpeedStep now f).sessionStartOriginBytes = f.sessionStartOriginBytes ∧
    (flowSpeedStep now f).sessionStartReplyBytes = f.sessionStartReplyBytes := by
  simp only [flowSpeedStep]
  split_ifs <;> exact ⟨rfl, rfl, rfl, rfl⟩

theorem trackerInv_flowSpeedStep (now : ℚ) (f : FlowTracker) (h : TrackerInv f) :
    TrackerInv (flowSpeedStep now f) := by
  have hb := flowSpeedStep_bytes now f
  unfold TrackerInv at h ⊢
  rw [hb.1, hb.2.1, hb.2.2.1, hb.2.2.2]
  exact h

theorem calculateSpeedStats_preserves (env : Env) (a : Aggregator) (h : SessionInv a) :
    SessionInv (calculateSpeedStats env a) := by
  obtain ⟨hc, hf⟩ := h
  refine ⟨?_, ?_⟩
  · intro p hp
    simp only [calculateSpeedStats] at hp
    obtain ⟨q2, hq2, rfl⟩ := mem_mapValsK _ hp
    obtain ⟨q1, hq1, rfl⟩ := mem_mapValsK _ hq2
    obtain ⟨q0, hq0, rfl⟩ := mem_mapValsK _ hq1
    exact clientInv_clientSpeedStep env.now q0.2 (hc q0 hq0)
  · intro p hp
    simp only [calculateSpeedStats] at hp
    obtain ⟨q, hq, rfl⟩ := mem_mapValsK _ hp
    exact trackerInv_flowSpeedStep env.now q.2 (hf q (List.mem_filter.1 hq).1)

theorem tickOp_preserves (env : Env) (sns : Option (List Subnet)) (a : Aggregator)
    (h : SessionInv a) : SessionInv (tickOp env sns a) := by
  unfold tickOp
  by_cases hi : a.interfaceName = ""
  · rw [if_pos hi]
    exact calculateSpeedStats_preserves env a h
  · rw [if_neg hi]
    cases sns with
    | none => exact calculateSpeedStats_preserves env a h
    | some s => exact calculateSpeedStats_preserves env _ ⟨h.1, h.2⟩

theorem resetSessionByMAC_preserves (env : Env) (a : Aggregator) (mac : String)
    (h : SessionInv a) : SessionInv (resetSessionByMAC env a mac) := by
  obtain ⟨hc, hf⟩ := h
  refine ⟨?_, ?_⟩
  · intro p hp
    simp only [resetSessionByMAC] at hp
    cases hl : lookupA a.clients mac with
    | some c =>
        rw [hl] at hp
        rcases mem_upsertA hp with rfl | hp
        · exact ⟨Nat.zero_le _, Nat.zero_le _⟩
        · exact hc p hp
    | none =>
        rw [hl] at hp
        exact hc p hp
  · intro p hp
    simp only [resetSessionByMAC] at hp
    exact hf p (List.mem_filter.1 hp).1

theorem applyOp_preserves (a : Aggregator) (op : Op) (h : SessionInv a) :
    SessionInv (applyOp a op) := by
  obtain ⟨hc, hf⟩ := h
  cases op with
  | event env ev => exact handleEvent_preserves env a ev ⟨hc, hf⟩
  | tick env sns => exact tickOp_preserves env sns a ⟨hc, hf⟩
  | reset now =>
      refine ⟨?_, ?_⟩
      · intro p hp
        exact absurd hp (List.not_mem_nil p)
      · intro p hp
        exact absurd hp (List.not_mem_nil p)
  | resetClient env mac =>
      refine ⟨?_, ?_⟩
      · intro p hp
        exact hc p (mem_eraseA hp)
      · intro p hp
        exact hf p (List.mem_filter.1 hp).1
  | resetSession env mac => exact resetSessionByMAC_preserves env a mac ⟨hc, hf⟩
  | deviceNames names =>
      refine ⟨?_, hf⟩
      intro p hp
      simp only [applyOp, setDeviceNames] at hp
      obtain ⟨q, hq, rfl⟩ := mem_mapValsK _ hp
      have hq' := hc q hq
      cases hl : lookupA (names.foldl (fun m p => upsertA p.1.toLower p.2 m) []) q.1 with
      | some n => exact hq'
      | none => exact hq'
  | ignoreLANSet b => exact ⟨hc, hf⟩
  | flowTTLSet ttl => exact ⟨hc, hf⟩
  | interfaceSet name sns => exact ⟨hc, hf⟩

theorem runOps_inv (ops : List Op) : ∀ a : Aggregator, SessionInv a →
    SessionInv (ops.foldl applyOp a) := by
  induction ops with
  | nil => exact fun a h => h
  | cons op rest ih => exact fun a h => ih (applyOp a op) (applyOp_preserves a op h)

/-- Claim C5: in every reachable aggregator state — after any sequence
of event handling, periodic ticks, resets and configuration changes —
every client satisfies session upload ≤ cumulative upload and session
download ≤ cumulative download, and every flow tracker's session-start
snapshots and session byte counts never exceed its cumulative totals. -/
theorem claim_C5 (now0 : ℚ) (ops : List Op) : SessionInv (runOps now0 ops) :=
  runOps_inv ops (initAggregator now0) (sessionInv_init now0)

/-! ### Client-entry existence (claim C9) -/

theorem bool_eq_of_iff {x y : Bool} (h : x = true ↔ y = true) : x = y := by
  cases x <;> cases y <;> simp_all

theorem handleEvent_processed_eq (env : Env) (a : Aggregator) (ev : FlowEvent) :
    (eventProcessed env a ev = false ∧ handleEvent env a ev = a) ∨
    (eventProcessed env a ev = true ∧
      ∃ ft, handleEvent env a ev = accumulate env a (mkFlowKey ev) ft ev ∧
        ft.srcIP = (attrIPs a ev).1 ∧ ft.dstIP = (attrIPs a ev).2) := by
  by_cases h1 : a.interfaceName ≠ "" ∧ ¬ checkFlowSubnet a ev.srcIP ev.dstIP
  · refine Or.inl ⟨?_, ?_⟩
    · simp only [eventProcessed]
      rw [if_pos h1]
    · simp only [handleEvent]
      rw [if_pos h1]
  by_cases h2 : env.isMulticast ev.dstIP = true
  · refine Or.inl ⟨?_, ?_⟩
    · simp only [eventProcessed]
      rw [if_neg h1, if_pos h2]
    · simp only [handleEvent]
      rw [if_neg h1, if_pos h2]
  by_cases h3 : env.isBcast ev.dstIP = true
  · refine Or.inl ⟨?_, ?_⟩
    · simp only [eventProcessed]
      rw [if_neg h1, if_neg h2, if_pos h3]
    · simp only [handleEvent]
      rw [if_neg h1, if_neg h2, if_pos h3]
  cases hlk : lookupA a.flows (mkFlowKey ev) with
  | some ft =>
      refine Or.inr ⟨?_, ft, ?_, ?_, ?_⟩
      · simp only [eventProcessed]
        rw [if_neg h1, if_neg h2, if_neg h3]
        simp only [hlk]
      · simp only [handleEvent]
        rw [if_neg h1, if_neg h2, if_neg h3]
        simp only [hlk]
      · simp only [attrIPs, hlk]
      · simp only [attrIPs, hlk]
  | none =>
      have hips1 : (attrIPs a ev).1 = ev.srcIP := by simp only [attrIPs, hlk]
      have hips2 : (attrIPs a ev).2 = ev.dstIP := by simp only [attrIPs, hlk]
      by_cases h4 : a.ignoreLAN ∧ a.lanSubnets.length > 0
      · by_cases h5 : (inAnySubnet a.lanSubnets ev.srcIP
            && inAnySubnet a.lanSubnets ev.dstIP) = true
        · refine Or.inl ⟨?_, ?_⟩
          · simp only [eventProcessed]
            rw [if_neg h1, if_neg h2, if_neg h3]
            simp only [hlk]
            rw [if_pos h4, h5]
            rfl
          · simp only [handleEvent]
            rw [if_neg h1, if_neg h2, if_neg h3]
            simp only [hlk]
            rw [if_pos h4, if_pos h5]
        · have h5f : (inAnySubnet a.lanSubnets ev.srcIP
              && inAnySubnet a.lanSubnets ev.dstIP) = false := by
            simp only [Bool.not_eq_true] at h5
            exact h5
          refine Or.inr ⟨?_, newTracker env ev, ?_, ?_, ?_⟩
          · simp only [eventProcessed]
            rw [if_neg h1, if_neg h2, if_neg h3]
            simp only [hlk]
            rw [if_pos h4, h5f]
            rfl
          · simp only [handleEvent]
            rw [if_neg h1, if_neg h2, if_neg h3]
            simp only [hlk]
            rw [if_pos h4, if_neg h5]
          · rw [hips1]
            rfl
          · rw [hips2]
            rfl
      · by_cases h6 : a.ignoreLAN ∧ env.getMAC ev.srcIP ≠ "" ∧ env.getMAC ev.dstIP ≠ ""
        · refine Or.inl ⟨?_, ?_⟩
          · simp only [eventProcessed]
            rw [if_neg h1, if_neg h2, if_neg h3]
            simp only [hlk]
            rw [if_neg h4, if_pos h6]
          · simp only [handleEvent]
            rw [if_neg h1, if_neg h2, if_neg h3]
            simp only [hlk]
            rw [if_neg h4, if_pos h6]
        · refine Or.inr ⟨?_, newTracker env ev, ?_, ?_, ?_⟩
          · simp only [eventProcessed]
            rw [if_neg h1, if_neg h2, if_neg h3]
            simp only [hlk]
            rw [if_neg h4, if_neg h6]
          · simp only [handleEvent]
            rw [if_neg h1, if_neg h2, if_neg h3]
            simp only [hlk]
            rw [if_neg h4, if_neg h6]
          · rw [hips1]
            rfl
          · rw [hips2]
            rfl

theorem lookupA_upsertA_isSome {K V : Type} [DecidableEq K] (k m : K) (v : V)
    (l : List (K × V)) :
    (lookupA (upsertA k v l) m).isSome = (decide (k = m) || (lookupA l m).isSome) := by
  rw [lookupA_upsertA]
  by_cases h : k = m <;> simp [h]

theorem updateStats_clients_isSome (env : Env) (a : Aggregator) (ft : FlowTracker)
    (dO dR : Nat) (mac : String) :
    ((lookupA (updateStats env a ft dO dR).clients mac).isSome = true ↔
      ((lookupA a.clients mac).isSome = true ∨
       (env.getMAC ft.srcIP = mac ∧ mac ≠ "") ∨
       (env.getMAC ft.dstIP = mac ∧ mac ≠ "" ∧
          env.getMAC ft.dstIP ≠ env.getMAC ft.srcIP))) := by
  by_cases h1 : env.getMAC ft.srcIP ≠ "" <;>
    by_cases h2 : env.getMAC ft.dstIP ≠ "" ∧ env.getMAC ft.dstIP ≠ env.getMAC ft.srcIP
  · have hred : (updateStats env a ft dO dR).clients
        = upsertA (env.getMAC ft.dstIP) (bumpDst (getClientVal { a with clients := (upsertA (env.getMAC ft.srcIP) (bumpSrc (getClientVal a (env.getMAC ft.srcIP) env.now) dO dR env.now) a.clients) } (env.getMAC ft.dstIP) env.now) dO dR env.now)
          (upsertA (env.getMAC ft.srcIP)
            (bumpSrc (getClientVal a (env.getMAC ft.srcIP) env.now) dO dR env.now)
            a.clients) := by
      simp only [updateStats]
      rw [if_pos h1, if_pos h2, if_neg (fun hcc : _ ∧ ¬ _ => hcc.2 h2),
        if_neg (fun hcc : _ ∧ ¬ _ => hcc.2 h1)]
    rw [hred, lookupA_upsertA_isSome, lookupA_upsertA_isSome]
    simp only [Bool.or_eq_true, decide_eq_true_eq]
    constructor
    · rintro (hd | hs | hsome)
      · exact Or.inr (Or.inr ⟨hd, fun hm => h2.1 (hd.trans hm), h2.2⟩)
      · exact Or.inr (Or.inl ⟨hs, fun hm => h1 (hs.trans hm)⟩)
      · exact Or.inl hsome
    · rintro (hsome | ⟨hs, _⟩ | ⟨hd, _, _⟩)
      · exact Or.inr (Or.inr hsome)
      · exact Or.inr (Or.inl hs)
      · exact Or.inl hd
  · have hred : (updateStats env a ft dO dR).clients
        = upsertA (env.getMAC ft.srcIP)
            (bumpSrc (getClientVal a (env.getMAC ft.srcIP) env.now) dO dR env.now)
            a.clients := by
      simp only [updateStats]
      rw [if_pos h1, if_neg h2, if_pos (And.intro h1 h2)]
    rw [hred, lookupA_upsertA_isSome]
    simp only [Bool.or_eq_true, decide_eq_true_eq]
    constructor
    · rintro (hs | hsome)
      · exact Or.inr (Or.inl ⟨hs, fun hm => h1 (hs.trans hm)⟩)
      · exact Or.inl hsome
    · rintro (hsome | ⟨hs, _⟩ | ⟨hd, hne, hdd⟩)
      · exact Or.inr hsome
      · exact Or.inl hs
      · exact absurd ⟨fun hde => hne (hd.symm.trans hde), hdd⟩ h2
  · have hred : (updateStats env a ft dO dR).clients
        = upsertA (env.getMAC ft.dstIP)
            (bumpDst (getClientVal a (env.getMAC ft.dstIP) env.now) dO dR env.now)
            a.clients := by
      simp only [updateStats]
      rw [if_neg h1, if_pos h2, if_neg (fun hcc : _ ∧ ¬ _ => h1 hcc.1),
        if_pos (And.intro h2 h1)]
    have hsrc0 : env.getMAC ft.srcIP = "" := not_not.mp h1
    rw [hred, lookupA_upsertA_isSome]
    simp only [Bool.or_eq_true, decide_eq_true_eq]
    constructor
    · rintro (hd | hsome)
      · exact Or.inr (Or.inr ⟨hd, fun hm => h2.1 (hd.trans hm), h2.2⟩)
      · exact Or.inl hsome
    · rintro (hsome | ⟨hs, hne⟩ | ⟨hd, _, _⟩)
      · exact Or.inr hsome
      · exact absurd (hs.symm.trans hsrc0) hne
      · exact Or.inl hd
  · have hred : (updateStats env a ft dO dR).clients = a.clients := by
      simp only [updateStats]
      rw [if_neg h1, if_neg h2, if_neg (fun hcc : _ ∧ ¬ _ => h1 hcc.1),
        if_neg (fun hcc : _ ∧ ¬ _ => h2 hcc.1)]
    have hsrc0 : env.getMAC ft.srcIP = "" := not_not.mp h1
    rw [hred]
    constructor
    · exact fun hsome => Or.inl hsome
    · rintro (hsome | ⟨hs, hne⟩ | ⟨hd, hne, hdd⟩)
      · exact hsome
      · exact absurd (hs.symm.trans hsrc0) hne
      · exact absurd ⟨fun hde => hne (hd.symm.trans hde), hdd⟩ h2

theorem accumulate_clients_isSome (env : Env) (a : Aggregator) (key : FlowKey)
    (ft : FlowTracker) (ev : FlowEvent) (mac : String) :
    ((lookupA (accumulate env a key ft ev).clients mac).isSome = true ↔
      ((lookupA a.clients mac).isSome = true ∨
       (env.getMAC ft.srcIP = mac ∧ mac ≠ "") ∨
       (env.getMAC ft.dstIP = mac ∧ mac ≠ "" ∧
          env.getMAC ft.dstIP ≠ env.getMAC ft.srcIP))) := by
  unfold accumulate
  exact updateStats_clients_isSome env _ _ _ _ mac

theorem handleEvent_clients_mem (env : Env) (a : Aggregator) (ev : FlowEvent) (mac : String) :
    ((lookupA (handleEvent env a ev).clients mac).isSome = true ↔
      ((lookupA a.clients mac).isSome = true ∨ attributesTo env a ev mac = true)) := by
  rcases handleEvent_processed_eq env a ev with ⟨hp, heq⟩ | ⟨hp, ft, heq, hsrc, hdst⟩
  · have hat : attributesTo env a ev mac = false := by
      simp [attributesTo, hp]
    rw [heq, hat]
    simp
  · have hat : (attributesTo env a ev mac = true ↔
        ((env.getMAC (attrIPs a ev).1 = mac ∧ mac ≠ "") ∨
         (env.getMAC (attrIPs a ev).2 = mac ∧ mac ≠ "" ∧
            env.getMAC (attrIPs a ev).2 ≠ env.getMAC (attrIPs a ev).1))) := by
      simp [attributesTo, hp]
    rw [heq, accumulate_clients_isSome, hat, hsrc, hdst]

theorem calcSpeed_clients_isSome (env : Env) (a : Aggregator) (mac : String) :
    (lookupA (calculateSpeedStats env a).clients mac).isSome
      = (lookupA a.clients mac).isSome := by
  simp only [calculateSpeedStats]
  rw [lookupA_mapValsK, lookupA_mapValsK, lookupA_mapValsK]
  cases lookupA a.clients mac <;> rfl

theorem tick_clients_isSome (env : Env) (sns : Option (List Subnet)) (a : Aggregator)
    (mac : String) :
    (lookupA (tickOp env sns a).clients mac).isSome = (lookupA a.clients mac).isSome := by
  unfold tickOp
  by_cases hi : a.interfaceName = ""
  · rw [if_pos hi]
    exact calcSpeed_clients_isSome env a mac
  · rw [if_neg hi]
    cases sns with
    | none => exact calcSpeed_clients_isSome env a mac
    | some s => exact calcSpeed_clients_isSome env { a with lanSubnets := s } mac

theorem resetSession_clients_isSome (env : Env) (a : Aggregator) (m mac : String) :
    (lookupA (resetSessionByMAC env a m).clients mac).isSome
      = (lookupA a.clients mac).isSome := by
  simp only [resetSessionByMAC]
  cases hl : lookupA a.clients m with
  | none => rfl
  | some c =>
      show (lookupA (upsertA m { c with sessionDownload := 0, sessionUpload := 0 }
          a.clients) mac).isSome = _
      rw [lookupA_upsertA]
      by_cases hm : m = mac
      · subst hm
        simp [hl]
      · simp [hm]

theorem deviceNames_clients_isSome (a : Aggregator) (names : List (String × String))
    (mac : String) :
    (lookupA (setDeviceNames a names).clients mac).isSome
      = (lookupA a.clients mac).isSome := by
  simp only [setDeviceNames]
  rw [lookupA_mapValsK]
  cases lookupA a.clients mac <;> rfl

/-- Counterexample to claim C9 as stated: a single update event whose
origin delta exceeds the 1 GiB cap by one byte (reply delta zero) passes
the monitor's both-zero suppression, is clamped by the aggregator, and
still creates a client-statistics entry for the local source MAC — the
entry exists although zero attributed bytes have been recorded for that
MAC since the (nonexistent) last reset. -/
theorem claim_C9_counterexample :
    (lookupA (runOps 0 [Op.event cEnv cBigEvent]).clients "aa:aa:aa:aa:aa:aa").isSome = true ∧
    clientCounters (runOps 0 [Op.event cEnv cBigEvent]) "aa:aa:aa:aa:aa:aa" = (0, 0, 0, 0) := by
  decide

/-- Claim C9, amended: in every reachable aggregator state, a
client-statistics entry for a MAC exists iff at least one delta event
has been attributed to that MAC — the event passed the filters and the
MAC was resolved as the local source, or as a local destination distinct
from the source — since the last reset affecting it (a global reset or a
per-client reset of that MAC). Such an event may carry zero recorded
bytes when its deltas are clamped by the 1 GiB cap. -/
theorem claim_C9 (now0 : ℚ) (ops : List Op) (mac : String) :
    (lookupA (runOps now0 ops).clients mac).isSome
      = (ops.foldl (attrStep mac) (initAggregator now0, false)).2 := by
  have key : ∀ (ops : List Op) (a : Aggregator) (b : Bool),
      (lookupA a.clients mac).isSome = b →
      (lookupA (ops.foldl applyOp a).clients mac).isSome
        = (ops.foldl (attrStep mac) (a, b)).2 := by
    intro ops
    induction ops with
    | nil => exact fun a b hb => hb
    | cons op rest ih =>
        intro a b hb
        rw [List.foldl_cons, List.foldl_cons]
        refine ih (applyOp a op) _ ?_
        cases op with
        | event env ev =>
            show (lookupA (handleEvent env a ev).clients mac).isSome
              = (b || attributesTo env a ev mac)
            apply bool_eq_of_iff
            rw [handleEvent_clients_mem, ← hb]
            simp [Bool.or_eq_true]
        | tick env sns =>
            show (lookupA (tickOp env sns a).clients mac).isSome = b
            rw [tick_clients_isSome, hb]
        | reset now => rfl
        | resetClient env m =>
            show (lookupA (eraseA m a.clients) mac).isSome = (if m = mac then false else b)
            rw [lookupA_eraseA]
            by_cases hm : m = mac
            · rw [if_pos hm, if_pos hm]
              rfl
            · rw [if_neg hm, if_neg hm, hb]
        | resetSession env m =>
            show (lookupA (resetSessionByMAC env a m).clients mac).isSome = b
            rw [resetSession_clients_isSome, hb]
        | deviceNames names =>
            show (lookupA (setDeviceNames a names).clients mac).isSome = b
            rw [deviceNames_clients_isSome, hb]
        | ignoreLANSet b2 => exact hb
        | flowTTLSet ttl => exact hb
        | interfaceSet name sns => exact hb
  exact key ops (initAggregator now0) false rfl

end CatchMole
